import Mathlib

/-!
# Verification of the WhatsApp media exporter pipeline

A shallow embedding of `src/exporter.py`.  Pure helpers (path manipulation,
`unique_destination_path`, input validation, the file-count estimate) are
translated directly; the stateful worker loops (`_worker_adb`,
`_worker_local`, `_worker_dispatch`) become explicit state-passing functions
over a `WState` record.  External effects (the `adb` bridge, the filesystem
walk, `os.path.getmtime`, `shutil` transfers, `datetime.strptime`) are
oracles supplied in environment records; a Python exception raised by such a
call is an `Except.error` carrying the exception text.  Instants
(`datetime` values) are modelled as integers (epoch seconds):
`datetime.fromtimestamp` is strictly monotone, so the inclusive range check
`start_dt <= mtime <= end_dt` is preserved.  The destination filesystem, as
consulted by `os.path.exists`, is a list of existing paths threaded through
the state.  The cancellation latch (`threading.Event`) is modelled as a
function from read-index to `Bool`: the k-th call to `is_set()` during the
run returns `cancel k`; a latch that is set once and never cleared is a
monotone such function.
-/

namespace WhatsappExporter

/-! ## Path helpers (modelling the `os.path` functions used, posix flavour) -/

/-- Index of the last occurrence of `c` in `l` (Python `str.rfind`,
`none` for `-1`). -/
def rfindIdx (c : Char) : List Char → Option Nat
  | [] => none
  | x :: xs =>
    match rfindIdx c xs with
    | some i => some (i + 1)
    | none => if x = c then some 0 else none

/-- `os.path.splitext` (CPython `genericpath._splitext` with `sep = '/'`):
split at the last dot of the basename, unless every character of the
basename before that dot is itself a dot. -/
def splitext (p : String) : String × String :=
  let l := p.data
  match rfindIdx '.' l with
  | none => (p, "")
  | some d =>
    let f : Nat := match rfindIdx '/' l with
      | none => 0
      | some s => s + 1
    let sepLt : Bool := match rfindIdx '/' l with
      | none => true
      | some s => decide (s < d)
    if sepLt ∧ ((l.drop f).take (d - f)).any (fun c => c ≠ '.') then
      (⟨l.take d⟩, ⟨l.drop d⟩)
    else (p, "")

/-- `os.path.dirname`, posix flavour. -/
def dirname (p : String) : String :=
  match rfindIdx '/' p.data with
  | none => ""
  | some s =>
    let head := p.data.take (s + 1)
    if head.all (fun c => c = '/') then ⟨head⟩
    else ⟨(head.reverse.dropWhile (fun c => c = '/')).reverse⟩

/-- `os.path.basename`, posix flavour. -/
def basename (p : String) : String :=
  match rfindIdx '/' p.data with
  | none => p
  | some s => ⟨p.data.drop (s + 1)⟩

/-- Python `s.startswith(pre)` (structural, over the character list). -/
def strStartsWith (s pre : String) : Bool := pre.data.isPrefixOf s.data

/-- Python `s.endswith(suf)` (structural, over the character list). -/
def strEndsWith (s suf : String) : Bool := suf.data.isSuffixOf s.data

/-- `os.path.join a b`, posix flavour, two arguments. -/
def pjoin (a b : String) : String :=
  if strStartsWith b "/" then b
  else if a = "" ∨ strEndsWith a "/" then a ++ b
  else a ++ "/" ++ b

/-- Python `s.rstrip("/")`. -/
def rstripSlash (s : String) : String :=
  ⟨(s.data.reverse.dropWhile (fun c => c = '/')).reverse⟩

/-- Python slicing `s[n:]` (character count, as Python `len` counts
characters). -/
def strDrop (s : String) (n : Nat) : String := ⟨s.data.drop n⟩

/-- Python `str.strip()`: drop leading and trailing whitespace. -/
def pyStrip (s : String) : String :=
  ⟨((s.data.dropWhile Char.isWhitespace).reverse.dropWhile
      Char.isWhitespace).reverse⟩

/-! ## Filesystem model -/

/-- The set of paths that currently exist, as consulted by
`os.path.exists`. -/
abbrev Fs := List String

/-- `ensure_dir` (`src/exporter.py:36`): `os.makedirs` if the path does not
exist.  In the model, creating a directory adds its path to the
filesystem. -/
def ensure_dir (fs : Fs) (path : String) : Fs :=
  if path ∈ fs then fs else path :: fs

/-- The candidate produced by the f-string `f"{base}__dup{i}{ext}"` in
`unique_destination_path`. -/
def dupCandidate (base ext : String) (i : Nat) : String :=
  base ++ "__dup" ++ Nat.repr i ++ ext

/-- The `while True` retry loop of `unique_destination_path`
(`src/exporter.py:47-51`), with explicit fuel.  `fs.length + 1` units of
fuel always suffice (`findFree_free` below), so the fuel-exhausted branch
is never reached with the fuel used by `unique_destination_path`. -/
def findFree (fs : Fs) (base ext : String) : Nat → Nat → String
  | i, 0 => dupCandidate base ext i
  | i, fuel + 1 =>
    let candidate := dupCandidate base ext i
    if candidate ∈ fs then findFree fs base ext (i + 1) fuel else candidate

/-- `unique_destination_path` (`src/exporter.py:41-51`). -/
def unique_destination_path (fs : Fs) (dst_path : String) : String :=
  if dst_path ∈ fs then
    let be := splitext dst_path
    findFree fs be.1 be.2 1 (fs.length + 1)
  else dst_path

/-! ## Injectivity of `Nat.repr`

The retry loop of `unique_destination_path` terminates on a free path
because distinct indices give distinct candidate names; this needs
injectivity of the decimal rendering of `Nat`, which we prove via a
left inverse. -/

/-- Decimal value of a digit character: left inverse of `Nat.digitChar`
on `0..9`. -/
def decDigit (c : Char) : Nat :=
  if c = '0' then 0 else if c = '1' then 1 else if c = '2' then 2 else
  if c = '3' then 3 else if c = '4' then 4 else if c = '5' then 5 else
  if c = '6' then 6 else if c = '7' then 7 else if c = '8' then 8 else 9

/-! ## Events, worker state, environments -/

/-- The typed messages put on `self._ui_queue` by the worker thread. -/
inductive Event where
  | log (msg : String)
  | scanned (n : Nat)
  | matched (n : Nat)
  | errors (n : Nat)
  | progress_setup (total : Nat)
  | progress_tick (delta : Nat)
  | progress_indeterminate
  | done
deriving DecidableEq, Repr

/-- The mutable state touched by a worker: the three counters
(`self._scanned`, `self._matched`, `self._errors`), the number of
cancellation-latch reads done so far (`clock`), the destination
filesystem, the events put on the queue so far (in order), and the
transfer attempts made so far (`adb pull` / `shutil.copy2` /
`shutil.move` invocations, as (source, destination) pairs). -/
structure WState where
  scanned : Nat
  matched : Nat
  errors : Nat
  clock : Nat
  fs : Fs
  events : List Event
  transfers : List (String × String)
deriving DecidableEq, Repr

/-- `self._ui_queue.put(e)`. -/
def emit (s : WState) (e : Event) : WState := { s with events := s.events ++ [e] }

/-- The state at worker start: `_on_start` resets all three counters to 0
and a fresh run has made no latch reads, emitted no events and attempted
no transfers. -/
def initState (fs : Fs) : WState :=
  { scanned := 0, matched := 0, errors := 0, clock := 0, fs := fs,
    events := [], transfers := [] }

/-- External effects available to `_worker_local`.  `cancel k` is the
value returned by the k-th read of the cancellation latch. -/
structure LocalEnv where
  isdir : String → Bool
  walk : String → List (String × List String)
  getmtime : String → Except String Int
  relpath : String → String → String
  copy2 : String → String → Except String Unit
  move : String → String → Except String Unit
  fmtTime : Int → String
  cancel : Nat → Bool

/-- External effects available to `_worker_adb`. -/
structure AdbEnv where
  path_exists : String → Bool
  count_files : String → Nat
  find_files : String → Except String (List String)
  stat_mtime : String → Except String Int
  pull : String → String → Except String Unit
  fmtTime : Int → String
  cancel : Nat → Bool

/-- `detect_media_root` (`src/exporter.py:29-33`). -/
def detect_media_root (isdir : String → Bool) (source_root : String) : String :=
  let candidate := pjoin source_root "Media"
  if isdir candidate then candidate else source_root

/-- `adb_find_whatsapp_media_roots` (`src/exporter.py:114-123`): keep the
well-known candidate roots that exist. -/
def adb_find_whatsapp_media_roots (path_exists : String → Bool) : List String :=
  ["/storage/emulated/0/Android/media/com.whatsapp/WhatsApp/Media",
   "/storage/emulated/0/WhatsApp/Media"].filter path_exists

/-! ## The local file-count estimate (`_estimate_total_files_local`) -/

/-- Inner `os.walk` loop of `_estimate_total_files_local`
(`src/exporter.py:575-578`): `.inl t` models the early `return total`
taken as soon as the running total exceeds 500000. -/
def estimate_walk : List (String × List String) → Nat → Nat ⊕ Nat
  | [], total => .inr total
  | (_, files) :: rest, total =>
    let total := total + files.length
    if total > 500000 then .inl total else estimate_walk rest total

/-- Outer subfolder loop of `_estimate_total_files_local`. -/
def estimate_subs (env : LocalEnv) (media_root : String) :
    List String → Nat → Nat
  | [], total => total
  | sub :: rest, total =>
    let p := pjoin media_root sub
    if env.isdir p then
      match estimate_walk (env.walk p) total with
      | .inl t => t
      | .inr t => estimate_subs env media_root rest t
    else estimate_subs env media_root rest total

/-- `_estimate_total_files_local` (`src/exporter.py:569-579`). -/
def estimate_total_files_local (env : LocalEnv) (media_root : String)
    (subfolders : List String) : Nat :=
  estimate_subs env media_root subfolders 0

/-! ## The local worker (`_worker_local`) -/

/-- Body of the innermost `for name in files` loop of `_worker_local`
(`src/exporter.py:612-645`), after the cancellation check. -/
def process_file_local (env : LocalEnv) (media_root dest_root : String)
    (start_dt end_dt : Int) (mode root name : String) (s : WState) : WState :=
  let src_file := pjoin root name
  let s := { s with scanned := s.scanned + 1 }
  let s := emit s (.scanned s.scanned)
  let s := emit s (.progress_tick 1)
  match env.getmtime src_file with
  | .error e =>
    let s := { s with errors := s.errors + 1 }
    let s := emit s (.errors s.errors)
    emit s (.log ("ERROR reading time: " ++ src_file ++ " (" ++ e ++ ")"))
  | .ok mtime =>
    if start_dt ≤ mtime ∧ mtime ≤ end_dt then
      let rel_path := env.relpath src_file media_root
      let dst_file := unique_destination_path s.fs (pjoin dest_root rel_path)
      let s := { s with fs := ensure_dir s.fs (dirname dst_file) }
      let s := { s with transfers := s.transfers ++ [(src_file, dst_file)] }
      match (if mode = "copy" then env.copy2 src_file dst_file
             else env.move src_file dst_file) with
      | .ok _ =>
        let s := { s with fs := dst_file :: s.fs, matched := s.matched + 1 }
        let s := emit s (.matched s.matched)
        emit s (.log ("Exported: " ++ rel_path ++ "  (modified: "
          ++ env.fmtTime mtime ++ ")"))
      | .error e =>
        let s := { s with errors := s.errors + 1 }
        let s := emit s (.errors s.errors)
        emit s (.log ("ERROR exporting: " ++ rel_path ++ " (" ++ e ++ ")"))
    else s

/-- `for name in files` loop of `_worker_local`, with its leading
cancellation check per file. -/
def process_files_local (env : LocalEnv) (media_root dest_root : String)
    (start_dt end_dt : Int) (mode root : String) :
    List String → WState → WState
  | [], s => s
  | name :: rest, s =>
    let c := env.cancel s.clock
    let s := { s with clock := s.clock + 1 }
    if c then s
    else process_files_local env media_root dest_root start_dt end_dt mode root
      rest (process_file_local env media_root dest_root start_dt end_dt mode
        root name s)

/-- `for root, _, files in os.walk(src_dir)` loop of `_worker_local`. -/
def process_walk_local (env : LocalEnv) (media_root dest_root : String)
    (start_dt end_dt : Int) (mode : String) :
    List (String × List String) → WState → WState
  | [], s => s
  | (root, files) :: rest, s =>
    let c := env.cancel s.clock
    let s := { s with clock := s.clock + 1 }
    if c then s
    else process_walk_local env media_root dest_root start_dt end_dt mode rest
      (process_files_local env media_root dest_root start_dt end_dt mode root
        files s)

/-- `for sub in subfolders` loop of `_worker_local`. -/
def process_subs_local (env : LocalEnv) (media_root dest_root : String)
    (start_dt end_dt : Int) (mode : String) : List String → WState → WState
  | [], s => s
  | sub :: rest, s =>
    let c := env.cancel s.clock
    let s := { s with clock := s.clock + 1 }
    if c then s
    else
      let src_dir := pjoin media_root sub
      if env.isdir src_dir then
        process_subs_local env media_root dest_root start_dt end_dt mode rest
          (process_walk_local env media_root dest_root start_dt end_dt mode
            (env.walk src_dir) s)
      else
        process_subs_local env media_root dest_root start_dt end_dt mode rest
          (emit s (.log ("Skipping missing folder: " ++ src_dir)))

/-- `_worker_local` (`src/exporter.py:581-652`).  The outer
`try/except` has no reachable `except` branch in the model, since every
fallible call is an explicit `Except` oracle handled by the inner
handlers; an unexpected internal fault is modelled at the dispatch level
(claim C3) by truncating the event trace. -/
def worker_local (env : LocalEnv) (source_root dest_root : String)
    (start_dt end_dt : Int) (subfolders : List String) (mode : String)
    (s : WState) : WState :=
  let media_root := detect_media_root env.isdir source_root
  let s := emit s (.log ("Media root detected: " ++ media_root))
  let total := estimate_total_files_local env media_root subfolders
  let s :=
    if total > 0 then
      emit (emit s (.progress_setup total))
        (.log ("Estimated total files to scan: " ++ Nat.repr total))
    else
      emit (emit s .progress_indeterminate)
        (.log "Scanning... (progress is indeterminate)")
  let s := process_subs_local env media_root dest_root start_dt end_dt mode
    subfolders s
  let c := env.cancel s.clock
  let s := { s with clock := s.clock + 1 }
  emit s (.log (if c then "Cancelled by user."
                else "Export complete (Local Folder mode)."))

/-! ## The ADB worker (`_worker_adb`) -/

/-- The relative path computed at `src/exporter.py:548-549`: strip the
root prefix when present, else fall back to the basename. -/
def adb_rel_path (root remote_file : String) : String :=
  let pfx := rstripSlash root ++ "/"
  if strStartsWith remote_file pfx then strDrop remote_file pfx.data.length
  else basename remote_file

/-- Body of the `for remote_file in remote_files` loop of `_worker_adb`
(`src/exporter.py:528-560`), after the cancellation check.  `adb_pull`
first ensures the destination's parent directory exists, then attempts
the pull. -/
def process_file_adb (env : AdbEnv) (root dest_root : String)
    (start_dt end_dt : Int) (remote_file : String) (s : WState) : WState :=
  let s := { s with scanned := s.scanned + 1 }
  let s := emit s (.scanned s.scanned)
  let s := emit s (.progress_tick 1)
  match env.stat_mtime remote_file with
  | .error e =>
    let s := { s with errors := s.errors + 1 }
    let s := emit s (.errors s.errors)
    emit s (.log ("ERROR reading time: " ++ remote_file ++ " (" ++ e ++ ")"))
  | .ok mtime =>
    if start_dt ≤ mtime ∧ mtime ≤ end_dt then
      let rel_path := adb_rel_path root remote_file
      let dst_file := unique_destination_path s.fs (pjoin dest_root rel_path)
      let s := { s with fs := ensure_dir s.fs (dirname dst_file) }
      let s := { s with transfers := s.transfers ++ [(remote_file, dst_file)] }
      match env.pull remote_file dst_file with
      | .ok _ =>
        let s := { s with fs := dst_file :: s.fs, matched := s.matched + 1 }
        let s := emit s (.matched s.matched)
        emit s (.log ("Exported: " ++ rel_path ++ "  (modified: "
          ++ env.fmtTime mtime ++ ")"))
      | .error e =>
        let s := { s with errors := s.errors + 1 }
        let s := emit s (.errors s.errors)
        emit s (.log ("ERROR exporting: " ++ rel_path ++ " (" ++ e ++ ")"))
    else s

/-- `for remote_file in remote_files` loop of `_worker_adb`. -/
def process_files_adb (env : AdbEnv) (root dest_root : String)
    (start_dt end_dt : Int) : List String → WState → WState
  | [], s => s
  | remote_file :: rest, s =>
    let c := env.cancel s.clock
    let s := { s with clock := s.clock + 1 }
    if c then s
    else process_files_adb env root dest_root start_dt end_dt rest
      (process_file_adb env root dest_root start_dt end_dt remote_file s)

/-- `for sub in subfolders` loop of `_worker_adb`, including the
`try: adb_find_files ... except` handler for listing failures. -/
def process_subs_adb (env : AdbEnv) (root dest_root : String)
    (start_dt end_dt : Int) : List String → WState → WState
  | [], s => s
  | sub :: rest, s =>
    let c := env.cancel s.clock
    let s := { s with clock := s.clock + 1 }
    if c then s
    else
      let remote_dir := root ++ "/" ++ sub
      if env.path_exists remote_dir then
        match env.find_files remote_dir with
        | .error e =>
          let s := { s with errors := s.errors + 1 }
          let s := emit s (.errors s.errors)
          let s := emit s
            (.log ("ERROR listing files in: " ++ remote_dir ++ " (" ++ e ++ ")"))
          process_subs_adb env root dest_root start_dt end_dt rest s
        | .ok remote_files =>
          process_subs_adb env root dest_root start_dt end_dt rest
            (process_files_adb env root dest_root start_dt end_dt remote_files s)
      else
        process_subs_adb env root dest_root start_dt end_dt rest
          (emit s (.log ("Skipping missing folder: " ++ remote_dir)))

/-- `for root in roots` loop of `_worker_adb`. -/
def process_roots_adb (env : AdbEnv) (dest_root : String)
    (start_dt end_dt : Int) (subfolders : List String) :
    List String → WState → WState
  | [], s => s
  | root :: rest, s =>
    let c := env.cancel s.clock
    let s := { s with clock := s.clock + 1 }
    if c then s
    else process_roots_adb env dest_root start_dt end_dt subfolders rest
      (process_subs_adb env root dest_root start_dt end_dt subfolders s)

/-- The upfront total computed by `_worker_adb` (`src/exporter.py:493-498`):
`total += adb_count_files(...)` over existing root × subfolder pairs. -/
def adb_estimate_total (env : AdbEnv) (roots subfolders : List String) : Nat :=
  roots.foldl (fun total root =>
    subfolders.foldl (fun total sub =>
      let remote_dir := root ++ "/" ++ sub
      if env.path_exists remote_dir then total + env.count_files remote_dir
      else total) total) 0

/-- `_worker_adb` (`src/exporter.py:483-567`).  As with `worker_local`,
the outer `try/except` has no reachable `except` branch in the model. -/
def worker_adb (env : AdbEnv) (dest_root : String) (start_dt end_dt : Int)
    (subfolders : List String) (s : WState) : WState :=
  let roots := adb_find_whatsapp_media_roots env.path_exists
  if roots.isEmpty then
    emit (emit s
        (.log "ERROR: Could not find WhatsApp Media folder on the device."))
      (.log ("Tried: /storage/emulated/0/Android/media/com.whatsapp/WhatsApp/Media"
        ++ " and /storage/emulated/0/WhatsApp/Media"))
  else
    let s := emit s
      (.log ("Using WhatsApp Media root(s): " ++ String.intercalate ", " roots))
    let total := adb_estimate_total env roots subfolders
    let s :=
      if total > 0 then
        emit (emit s (.progress_setup total))
          (.log ("Estimated total files to scan: " ++ Nat.repr total))
      else
        emit (emit s .progress_indeterminate)
          (.log "Scanning... (progress is indeterminate)")
    let s := process_roots_adb env dest_root start_dt end_dt subfolders roots s
    let c := env.cancel s.clock
    let s := { s with clock := s.clock + 1 }
    emit s (.log (if c then "Cancelled by user."
                  else "Export complete (ADB mode)."))

/-- `_worker_dispatch` (`src/exporter.py:473-481`): whatever event trace
the selected worker managed to put on the queue — even a trace truncated
by an unexpected internal fault — the `finally` block appends the
`("done", None)` event afterwards. -/
def worker_dispatch (workerEvents : List Event) : List Event :=
  workerEvents ++ [Event.done]

/-! ## Input validation (`_validate_inputs`, `_on_start`) -/

/-- The UI input fields read by `_validate_inputs`. -/
structure Inputs where
  var_source_mode : String
  var_device : String
  var_source_folder : String
  var_dest : String
  var_start : String
  var_end : String
  subfolder_vars : List (String × Bool)
  var_mode : String

/-- External calls made by `_validate_inputs`: `parse_date` models
`parse_yyyy_mm_dd` (strict `datetime.strptime` on the stripped field,
`none` when it raises `ValueError`); `end_of_day` models
`.replace(hour=23, minute=59, second=59)` on the parsed end date. -/
structure ValidateEnv where
  parse_date : String → Option Int
  end_of_day : Int → Int
  isdir : String → Bool

/-- The validated tuple returned by `_validate_inputs`. -/
structure ExportConfig where
  src_mode : String
  src_value : String
  dst : String
  start_dt : Int
  end_dt : Int
  subfolders : List String
  mode : String
deriving DecidableEq, Repr

/-- `_validate_inputs` (`src/exporter.py:409-444`).  Returns the result
(`ValueError` text on rejection) together with the filesystem after the
`ensure_dir(dst)` side effect. -/
def validate_inputs (env : ValidateEnv) (fs : Fs) (inp : Inputs) :
    Except String ExportConfig × Fs :=
  let src_mode := pyStrip inp.var_source_mode
  if ¬ (src_mode = "adb" ∨ src_mode = "local") then
    (.error "Invalid Source Type selected.", fs)
  else
    let dst := pyStrip inp.var_dest
    if dst = "" then (.error "Please select a Destination folder.", fs)
    else
      let fs := ensure_dir fs dst
      match env.parse_date inp.var_start with
      | none => (.error "Invalid start date.", fs)
      | some start_dt =>
        match env.parse_date inp.var_end with
        | none => (.error "Invalid end date.", fs)
        | some e =>
          let end_dt := env.end_of_day e
          if end_dt < start_dt then
            (.error "End date must be the same as or later than start date.", fs)
          else
            let chosen_subs :=
              (inp.subfolder_vars.filter (fun nv => nv.2)).map (fun nv => nv.1)
            if chosen_subs = [] then
              (.error "Please select at least one subfolder to scan.", fs)
            else
              let mode := inp.var_mode
              if ¬ (mode = "copy" ∨ mode = "move") then
                (.error "Invalid export mode selected.", fs)
              else if src_mode = "adb" then
                let device := pyStrip inp.var_device
                if device = "" then
                  (.error
                    "Please select a connected device (Refresh Devices if needed).",
                    fs)
                else if mode = "move" then
                  (.error
                    "Move mode is not supported in USB Device (ADB) mode. Use Copy.",
                    fs)
                else
                  (.ok ⟨"adb", device, dst, start_dt, end_dt, chosen_subs, "copy"⟩,
                    fs)
              else
                let src_folder := pyStrip inp.var_source_folder
                if src_folder = "" ∨ ¬ env.isdir src_folder then
                  (.error "Please select a valid Source folder (copied from phone).",
                    fs)
                else
                  (.ok ⟨"local", src_folder, dst, start_dt, end_dt, chosen_subs,
                    mode⟩, fs)

/-- `_on_start` (`src/exporter.py:448-471`): the worker thread is
created and started only when `_validate_inputs` did not raise; on a
`ValueError` the handler shows a message box and returns without
starting the worker. -/
def on_start (env : ValidateEnv) (fs : Fs) (inp : Inputs) :
    Option ExportConfig × Fs :=
  match validate_inputs env fs inp with
  | (.error _, fs') => (none, fs')
  | (.ok cfg, fs') => (some cfg, fs')

/-! ## Observations and invariants over event traces -/

/-- The events the scan loops can emit (everything except `done` and the
progress-mode events, which are emitted only before the loops / by the
dispatch wrapper). -/
def engineEvent : Event → Prop
  | .log _ => True
  | .scanned _ => True
  | .matched _ => True
  | .errors _ => True
  | .progress_tick _ => True
  | _ => False

/-- The values carried by the `ScannedCount` events of a trace, in
emission order. -/
def scannedVals (evs : List Event) : List Nat :=
  evs.filterMap fun e => match e with | .scanned n => some n | _ => none

/-- The values carried by the `ExportedCount` events of a trace. -/
def matchedVals (evs : List Event) : List Nat :=
  evs.filterMap fun e => match e with | .matched n => some n | _ => none

/-- The values carried by the `ErrorCount` events of a trace. -/
def errorVals (evs : List Event) : List Nat :=
  evs.filterMap fun e => match e with | .errors n => some n | _ => none

/-- Counter events emitted so far are monotone and bounded by the live
counters. -/
def counterInv (s : WState) : Prop :=
  List.Pairwise (· ≤ ·) (scannedVals s.events) ∧
  List.Pairwise (· ≤ ·) (matchedVals s.events) ∧
  List.Pairwise (· ≤ ·) (errorVals s.events) ∧
  (∀ n ∈ scannedVals s.events, n ≤ s.scanned) ∧
  (∀ n ∈ matchedVals s.events, n ≤ s.matched) ∧
  (∀ n ∈ errorVals s.events, n ≤ s.errors)

/-- Evolution relation satisfied by every step of the scan loops:
counters never decrease, events are only appended and are engine events,
transfers are only appended, and the counter invariant is preserved. -/
def Steps (s s' : WState) : Prop :=
  s.scanned ≤ s'.scanned ∧ s.matched ≤ s'.matched ∧ s.errors ≤ s'.errors ∧
  (∃ t, s'.events = s.events ++ t ∧ ∀ e ∈ t, engineEvent e) ∧
  (∃ u, s'.transfers = s.transfers ++ u) ∧
  (counterInv s → counterInv s')

/-- Spec-side count for claim C8: the number of files enumerated across
all existing, selected subfolders of the local media root. -/
def spec_enumerated_local (env : LocalEnv) (media_root : String)
    (subfolders : List String) : Nat :=
  (subfolders.map fun sub =>
    if env.isdir (pjoin media_root sub) then
      ((env.walk (pjoin media_root sub)).map fun entry => entry.2.length).sum
    else 0).sum

/-- Spec-side count for claim C8, remote backend, one root: files
successfully enumerated across the existing subfolders of that root (a
failed listing enumerates no files). -/
def spec_enumerated_adb_root (env : AdbEnv) (root : String)
    (subfolders : List String) : Nat :=
  (subfolders.map fun sub =>
    if env.path_exists (root ++ "/" ++ sub) then
      (match env.find_files (root ++ "/" ++ sub) with
       | .ok l => l.length
       | .error _ => 0)
    else 0).sum

/-- Spec-side count for claim C8, remote backend: files successfully
enumerated across all existing root × subfolder pairs. -/
def spec_enumerated_adb (env : AdbEnv) (subfolders : List String) : Nat :=
  ((adb_find_whatsapp_media_roots env.path_exists).map fun root =>
    spec_enumerated_adb_root env root subfolders).sum

/-- The event trace of `s'` extends that of `s` with events all
satisfying `P`. -/
def TraceExt (P : Event → Prop) (s s' : WState) : Prop :=
  ∃ t, s'.events = s.events ++ t ∧ ∀ e ∈ t, P e

/-! ## Concrete environments used by witnesses and counterexamples -/

/-- A small concrete local environment: one subfolder directory whose
walk yields two files, one of which fails `getmtime`, with transfers
succeeding except for designated paths. -/
def lenvW : LocalEnv where
  isdir := fun _ => true
  walk := fun _ => [("r", ["f1", "f2"])]
  getmtime := fun p => if p = "r/bad" then .error "boom" else .ok 5
  relpath := fun p _ => p
  copy2 := fun p _ => if p = "r/cfail" then .error "cboom" else .ok ()
  move := fun p _ => if p = "r/mfail" then .error "mboom" else .ok ()
  fmtTime := fun _ => "t"
  cancel := fun _ => false

/-- A small concrete remote environment: both well-known roots missing
except the second, one subfolder, two files, one failing `stat`. -/
def aenvW : AdbEnv where
  path_exists := fun p => p ≠ "/storage/emulated/0/Android/media/com.whatsapp/WhatsApp/Media"
  count_files := fun _ => 2
  find_files := fun p => if p = "ar/nosub" then .error "lboom" else .ok ["g1", "g2"]
  stat_mtime := fun p => if p = "gbad" then .error "sboom" else .ok 5
  pull := fun p _ => if p = "gpfail" then .error "pboom" else .ok ()
  fmtTime := fun _ => "t"
  cancel := fun _ => false

/-- Environment exercising the estimate cap for claim C7: one subfolder
whose walk contains a single directory holding 500001 files; the
cancellation latch is already set, so the scan loop is skipped and the
progress events emitted before it remain visible. -/
def envC7 : LocalEnv where
  isdir := fun p => p = "m/s"
  walk := fun _ => [("m/s", List.replicate 500001 "f")]
  getmtime := fun _ => .error "unused"
  relpath := fun p _ => p
  copy2 := fun _ _ => .ok ()
  move := fun _ _ => .ok ()
  fmtTime := fun _ => ""
  cancel := fun _ => true

/-! ## Lemmas: injectivity of `Nat.repr` and freeness of the retry loop -/

lemma decDigit_digitChar {d : Nat} (h : d < 10) :
    decDigit (Nat.digitChar d) = d := by
  interval_cases d <;> decide

lemma toDigitsCore_append (n : Nat) : ∀ (fuel : Nat) (acc : List Char),
    n < fuel →
    Nat.toDigitsCore 10 fuel n acc = Nat.toDigitsCore 10 (n + 1) n [] ++ acc := by
  induction n using Nat.strong_induction_on with
  | _ n ih =>
    intro fuel acc hfuel
    match fuel, hfuel with
    | f + 1, _ =>
      by_cases h0 : n / 10 = 0
      · simp [Nat.toDigitsCore, h0]
      · have hdiv : n / 10 < n := Nat.div_lt_self (by omega) (by omega)
        have hnf : n ≤ f := by omega
        have hdf : n / 10 < f := by omega
        rw [show Nat.toDigitsCore 10 (f + 1) n acc
            = Nat.toDigitsCore 10 f (n / 10) (Nat.digitChar (n % 10) :: acc) by
          simp [Nat.toDigitsCore, h0]]
        rw [show Nat.toDigitsCore 10 (n + 1) n []
            = Nat.toDigitsCore 10 n (n / 10) [Nat.digitChar (n % 10)] by
          simp [Nat.toDigitsCore, h0]]
        rw [ih (n / 10) hdiv f (Nat.digitChar (n % 10) :: acc) hdf]
        rw [ih (n / 10) hdiv n [Nat.digitChar (n % 10)] (by omega)]
        simp

lemma toDigits_small {n : Nat} (h : n / 10 = 0) :
    Nat.toDigits 10 n = [Nat.digitChar (n % 10)] := by
  simp [Nat.toDigits, Nat.toDigitsCore, h]

lemma toDigits_step {n : Nat} (h : n / 10 ≠ 0) :
    Nat.toDigits 10 n = Nat.toDigits 10 (n / 10) ++ [Nat.digitChar (n % 10)] := by
  have hdiv : n / 10 < n := Nat.div_lt_self (by omega) (by omega)
  rw [show Nat.toDigits 10 n
      = Nat.toDigitsCore 10 n (n / 10) [Nat.digitChar (n % 10)] by
    simp [Nat.toDigits, Nat.toDigitsCore, h]]
  rw [toDigitsCore_append (n / 10) n [Nat.digitChar (n % 10)] (by omega)]
  rfl

/-- Folding the decimal digit list back into a number recovers the
number. -/
lemma foldl_toDigits (n : Nat) : ∀ a : Nat,
    (Nat.toDigits 10 n).foldl (fun acc c => 10 * acc + decDigit c) a =
      a * 10 ^ (Nat.toDigits 10 n).length + n := by
  induction n using Nat.strong_induction_on with
  | _ n ih =>
    intro a
    by_cases h0 : n / 10 = 0
    · have hn : n < 10 := by omega
      rw [toDigits_small h0, Nat.mod_eq_of_lt hn]
      simp [decDigit_digitChar hn, pow_one]
      omega
    · have hdiv : n / 10 < n := Nat.div_lt_self (by omega) (by omega)
      rw [toDigits_step h0]
      rw [List.foldl_append]
      rw [ih (n / 10) hdiv a]
      simp [decDigit_digitChar (Nat.mod_lt n (by omega) : n % 10 < 10)]
      rw [pow_succ]
      have : 10 * (n / 10) + n % 10 = n := Nat.div_add_mod n 10
      ring_nf
      omega

lemma repr_injective : Function.Injective Nat.repr := by
  intro m n h
  have hd : Nat.toDigits 10 m = Nat.toDigits 10 n := congrArg String.data h
  have hm := foldl_toDigits m 0
  have hn := foldl_toDigits n 0
  rw [hd] at hm
  rw [hm] at hn
  omega

lemma dupCandidate_inj (base ext : String) {i j : Nat}
    (h : dupCandidate base ext i = dupCandidate base ext j) : i = j := by
  apply repr_injective
  have h' : base.data ++ "__dup".data ++ (Nat.repr i).data ++ ext.data
      = base.data ++ "__dup".data ++ (Nat.repr j).data ++ ext.data := by
    have := congrArg String.data h
    simpa [dupCandidate, String.data_append, List.append_assoc] using this
  have h2 : (Nat.repr i).data ++ ext.data = (Nat.repr j).data ++ ext.data := by
    rw [List.append_assoc, List.append_assoc, List.append_assoc,
      List.append_assoc] at h'
    exact List.append_cancel_left (List.append_cancel_left h')
  have h3 : (Nat.repr i).data = (Nat.repr j).data :=
    List.append_cancel_right h2
  exact congrArg String.mk h3

/-! ## Freeness of the retry loop's result -/

lemma exists_free_index (fs : Fs) (base ext : String) :
    ∃ j, 1 ≤ j ∧ j < 1 + (fs.length + 1) ∧ dupCandidate base ext j ∉ fs := by
  by_contra hall
  push_neg at hall
  have hmap : ∀ a ∈ Finset.Icc 1 (fs.length + 1),
      dupCandidate base ext a ∈ fs.toFinset := by
    intro a ha
    rw [Finset.mem_Icc] at ha
    rw [List.mem_toFinset]
    exact hall a ha.1 (by omega)
  have hinj : Set.InjOn (dupCandidate base ext)
      (Finset.Icc 1 (fs.length + 1)) := by
    intro a _ b _ hab
    exact dupCandidate_inj base ext hab
  have hcard := Finset.card_le_card_of_injOn _ hmap hinj
  rw [Nat.card_Icc] at hcard
  have := fs.toFinset_card_le
  omega

lemma findFree_spec (fs : Fs) (base ext : String) :
    ∀ (fuel i : Nat),
    (∃ j, i ≤ j ∧ j < i + fuel ∧ dupCandidate base ext j ∉ fs) →
    findFree fs base ext i fuel ∉ fs ∧
    ∃ k, i ≤ k ∧ findFree fs base ext i fuel = dupCandidate base ext k ∧
      ∀ j, i ≤ j → j < k → dupCandidate base ext j ∈ fs := by
  intro fuel
  induction fuel with
  | zero =>
    intro i ⟨j, h1, h2, _⟩
    omega
  | succ fuel ih =>
    intro i ⟨j, hij, hlt, hfree⟩
    by_cases hc : dupCandidate base ext i ∈ fs
    · have hji : j ≠ i := by
        intro hji; exact hfree (hji ▸ hc)
      have hrec := ih (i + 1) ⟨j, by omega, by omega, hfree⟩
      rw [show findFree fs base ext i (fuel + 1)
          = findFree fs base ext (i + 1) fuel by simp [findFree, hc]]
      refine ⟨hrec.1, ?_⟩
      obtain ⟨k, hk1, hk2, hk3⟩ := hrec.2
      refine ⟨k, by omega, hk2, ?_⟩
      intro j' hj1 hj2
      by_cases hji' : j' = i
      · exact hji' ▸ hc
      · exact hk3 j' (by omega) hj2
    · rw [show findFree fs base ext i (fuel + 1) = dupCandidate base ext i by
        simp [findFree, hc]]
      exact ⟨hc, i, le_refl i, rfl, fun j' h1 h2 => absurd h2 (by omega)⟩

lemma unique_destination_path_free (fs : Fs) (p : String) :
    unique_destination_path fs p ∉ fs := by
  unfold unique_destination_path
  by_cases hp : p ∈ fs
  · simp only [hp, if_true]
    obtain ⟨j, h1, h2, h3⟩ := exists_free_index fs (splitext p).1 (splitext p).2
    exact (findFree_spec fs (splitext p).1 (splitext p).2 (fs.length + 1) 1
      ⟨j, h1, h2, h3⟩).1
  · rw [if_neg hp]
    exact hp

/-! ## Branch equations for the per-file processing -/

lemma process_file_local_stat_error {env : LocalEnv} {mr dr : String}
    {a b : Int} {mode root name : String} {s : WState} {e : String}
    (h : env.getmtime (pjoin root name) = .error e) :
    process_file_local env mr dr a b mode root name s =
      { s with
        scanned := s.scanned + 1,
        errors := s.errors + 1,
        events := s.events ++ [.scanned (s.scanned + 1), .progress_tick 1,
          .errors (s.errors + 1),
          .log ("ERROR reading time: " ++ pjoin root name ++ " (" ++ e ++ ")")] } := by
  cases s
  simp [process_file_local, emit, h]

lemma process_file_local_filtered {env : LocalEnv} {mr dr : String}
    {a b : Int} {mode root name : String} {s : WState} {mtime : Int}
    (h : env.getmtime (pjoin root name) = .ok mtime)
    (hout : ¬ (a ≤ mtime ∧ mtime ≤ b)) :
    process_file_local env mr dr a b mode root name s =
      { s with
        scanned := s.scanned + 1,
        events := s.events ++ [.scanned (s.scanned + 1), .progress_tick 1] } := by
  cases s
  simp [process_file_local, emit, h, hout]

lemma process_file_local_transfer_ok {env : LocalEnv} {mr dr : String}
    {a b : Int} {mode root name : String} {s : WState} {mtime : Int}
    {dst : String}
    (hdst : dst = unique_destination_path s.fs
      (pjoin dr (env.relpath (pjoin root name) mr)))
    (h : env.getmtime (pjoin root name) = .ok mtime)
    (hin : a ≤ mtime ∧ mtime ≤ b)
    (ht : (if mode = "copy" then env.copy2 (pjoin root name) dst
           else env.move (pjoin root name) dst) = .ok ()) :
    process_file_local env mr dr a b mode root name s =
      { s with
        scanned := s.scanned + 1,
        matched := s.matched + 1,
        fs := dst :: ensure_dir s.fs (dirname dst),
        transfers := s.transfers ++ [(pjoin root name, dst)],
        events := s.events ++ [.scanned (s.scanned + 1), .progress_tick 1,
          .matched (s.matched + 1),
          .log ("Exported: " ++ env.relpath (pjoin root name) mr
            ++ "  (modified: " ++ env.fmtTime mtime ++ ")")] } := by
  subst hdst
  cases s
  simp [process_file_local, emit, h, hin, ht]

lemma process_file_local_transfer_error {env : LocalEnv} {mr dr : String}
    {a b : Int} {mode root name : String} {s : WState} {mtime : Int}
    {dst e : String}
    (hdst : dst = unique_destination_path s.fs
      (pjoin dr (env.relpath (pjoin root name) mr)))
    (h : env.getmtime (pjoin root name) = .ok mtime)
    (hin : a ≤ mtime ∧ mtime ≤ b)
    (ht : (if mode = "copy" then env.copy2 (pjoin root name) dst
           else env.move (pjoin root name) dst) = .error e) :
    process_file_local env mr dr a b mode root name s =
      { s with
        scanned := s.scanned + 1,
        errors := s.errors + 1,
        fs := ensure_dir s.fs (dirname dst),
        transfers := s.transfers ++ [(pjoin root name, dst)],
        events := s.events ++ [.scanned (s.scanned + 1), .progress_tick 1,
          .errors (s.errors + 1),
          .log ("ERROR exporting: " ++ env.relpath (pjoin root name) mr
            ++ " (" ++ e ++ ")")] } := by
  subst hdst
  cases s
  simp [process_file_local, emit, h, hin, ht]

lemma process_file_adb_stat_error {env : AdbEnv} {root dr : String}
    {a b : Int} {remote_file : String} {s : WState} {e : String}
    (h : env.stat_mtime remote_file = .error e) :
    process_file_adb env root dr a b remote_file s =
      { s with
        scanned := s.scanned + 1,
        errors := s.errors + 1,
        events := s.events ++ [.scanned (s.scanned + 1), .progress_tick 1,
          .errors (s.errors + 1),
          .log ("ERROR reading time: " ++ remote_file ++ " (" ++ e ++ ")")] } := by
  cases s
  simp [process_file_adb, emit, h]

lemma process_file_adb_filtered {env : AdbEnv} {root dr : String}
    {a b : Int} {remote_file : String} {s : WState} {mtime : Int}
    (h : env.stat_mtime remote_file = .ok mtime)
    (hout : ¬ (a ≤ mtime ∧ mtime ≤ b)) :
    process_file_adb env root dr a b remote_file s =
      { s with
        scanned := s.scanned + 1,
        events := s.events ++ [.scanned (s.scanned + 1), .progress_tick 1] } := by
  cases s
  simp [process_file_adb, emit, h, hout]

lemma process_file_adb_pull_ok {env : AdbEnv} {root dr : String}
    {a b : Int} {remote_file : String} {s : WState} {mtime : Int}
    {dst : String}
    (hdst : dst = unique_destination_path s.fs
      (pjoin dr (adb_rel_path root remote_file)))
    (h : env.stat_mtime remote_file = .ok mtime)
    (hin : a ≤ mtime ∧ mtime ≤ b)
    (ht : env.pull remote_file dst = .ok ()) :
    process_file_adb env root dr a b remote_file s =
      { s with
        scanned := s.scanned + 1,
        matched := s.matched + 1,
        fs := dst :: ensure_dir s.fs (dirname dst),
        transfers := s.transfers ++ [(remote_file, dst)],
        events := s.events ++ [.scanned (s.scanned + 1), .progress_tick 1,
          .matched (s.matched + 1),
          .log ("Exported: " ++ adb_rel_path root remote_file
            ++ "  (modified: " ++ env.fmtTime mtime ++ ")")] } := by
  subst hdst
  cases s
  simp [process_file_adb, emit, h, hin, ht]

lemma process_file_adb_pull_error {env : AdbEnv} {root dr : String}
    {a b : Int} {remote_file : String} {s : WState} {mtime : Int}
    {dst e : String}
    (hdst : dst = unique_destination_path s.fs
      (pjoin dr (adb_rel_path root remote_file)))
    (h : env.stat_mtime remote_file = .ok mtime)
    (hin : a ≤ mtime ∧ mtime ≤ b)
    (ht : env.pull remote_file dst = .error e) :
    process_file_adb env root dr a b remote_file s =
      { s with
        scanned := s.scanned + 1,
        errors := s.errors + 1,
        fs := ensure_dir s.fs (dirname dst),
        transfers := s.transfers ++ [(remote_file, dst)],
        events := s.events ++ [.scanned (s.scanned + 1), .progress_tick 1,
          .errors (s.errors + 1),
          .log ("ERROR exporting: " ++ adb_rel_path root remote_file
            ++ " (" ++ e ++ ")")] } := by
  subst hdst
  cases s
  simp [process_file_adb, emit, h, hin, ht]

/-! ## Loop equations -/

lemma process_files_local_cons {env : LocalEnv} {mr dr : String} {a b : Int}
    {mode root name : String} {rest : List String} {s : WState}
    (hc : env.cancel s.clock = false) :
    process_files_local env mr dr a b mode root (name :: rest) s =
      process_files_local env mr dr a b mode root rest
        (process_file_local env mr dr a b mode root name
          { s with clock := s.clock + 1 }) := by
  simp [process_files_local, hc]

lemma process_files_local_cancelled {env : LocalEnv} {mr dr : String}
    {a b : Int} {mode root name : String} {rest : List String} {s : WState}
    (hc : env.cancel s.clock = true) :
    process_files_local env mr dr a b mode root (name :: rest) s
      = { s with clock := s.clock + 1 } := by
  simp [process_files_local, hc]

lemma process_walk_local_cons {env : LocalEnv} {mr dr : String} {a b : Int}
    {mode root : String} {files : List String}
    {rest : List (String × List String)} {s : WState}
    (hc : env.cancel s.clock = false) :
    process_walk_local env mr dr a b mode ((root, files) :: rest) s =
      process_walk_local env mr dr a b mode rest
        (process_files_local env mr dr a b mode root files
          { s with clock := s.clock + 1 }) := by
  simp [process_walk_local, hc]

lemma process_walk_local_cancelled {env : LocalEnv} {mr dr : String}
    {a b : Int} {mode root : String} {files : List String}
    {rest : List (String × List String)} {s : WState}
    (hc : env.cancel s.clock = true) :
    process_walk_local env mr dr a b mode ((root, files) :: rest) s
      = { s with clock := s.clock + 1 } := by
  simp [process_walk_local, hc]

lemma process_subs_local_cons_dir {env : LocalEnv} {mr dr : String}
    {a b : Int} {mode sub : String} {rest : List String} {s : WState}
    (hc : env.cancel s.clock = false)
    (hd : env.isdir (pjoin mr sub) = true) :
    process_subs_local env mr dr a b mode (sub :: rest) s =
      process_subs_local env mr dr a b mode rest
        (process_walk_local env mr dr a b mode (env.walk (pjoin mr sub))
          { s with clock := s.clock + 1 }) := by
  simp [process_subs_local, hc, hd]

lemma process_subs_local_cons_missing {env : LocalEnv} {mr dr : String}
    {a b : Int} {mode sub : String} {rest : List String} {s : WState}
    (hc : env.cancel s.clock = false)
    (hd : env.isdir (pjoin mr sub) = false) :
    process_subs_local env mr dr a b mode (sub :: rest) s =
      process_subs_local env mr dr a b mode rest
        (emit { s with clock := s.clock + 1 }
          (.log ("Skipping missing folder: " ++ pjoin mr sub))) := by
  simp [process_subs_local, hc, hd]

lemma process_subs_local_cancelled {env : LocalEnv} {mr dr : String}
    {a b : Int} {mode sub : String} {rest : List String} {s : WState}
    (hc : env.cancel s.clock = true) :
    process_subs_local env mr dr a b mode (sub :: rest) s
      = { s with clock := s.clock + 1 } := by
  simp [process_subs_local, hc]

lemma process_files_adb_cons {env : AdbEnv} {root dr : String} {a b : Int}
    {remote_file : String} {rest : List String} {s : WState}
    (hc : env.cancel s.clock = false) :
    process_files_adb env root dr a b (remote_file :: rest) s =
      process_files_adb env root dr a b rest
        (process_file_adb env root dr a b remote_file
          { s with clock := s.clock + 1 }) := by
  simp [process_files_adb, hc]

lemma process_files_adb_cancelled {env : AdbEnv} {root dr : String}
    {a b : Int} {remote_file : String} {rest : List String} {s : WState}
    (hc : env.cancel s.clock = true) :
    process_files_adb env root dr a b (remote_file :: rest) s
      = { s with clock := s.clock + 1 } := by
  simp [process_files_adb, hc]

lemma process_subs_adb_cons_found {env : AdbEnv} {root dr : String}
    {a b : Int} {sub : String} {rest : List String} {s : WState}
    {remote_files : List String}
    (hc : env.cancel s.clock = false)
    (hx : env.path_exists (root ++ "/" ++ sub) = true)
    (hf : env.find_files (root ++ "/" ++ sub) = .ok remote_files) :
    process_subs_adb env root dr a b (sub :: rest) s =
      process_subs_adb env root dr a b rest
        (process_files_adb env root dr a b remote_files
          { s with clock := s.clock + 1 }) := by
  simp [process_subs_adb, hc, hx, hf]

lemma process_subs_adb_cons_list_error {env : AdbEnv} {root dr : String}
    {a b : Int} {sub : String} {rest : List String} {s : WState} {e : String}
    (hc : env.cancel s.clock = false)
    (hx : env.path_exists (root ++ "/" ++ sub) = true)
    (hf : env.find_files (root ++ "/" ++ sub) = .error e) :
    process_subs_adb env root dr a b (sub :: rest) s =
      process_subs_adb env root dr a b rest
        { s with
          clock := s.clock + 1,
          errors := s.errors + 1,
          events := s.events ++ [.errors (s.errors + 1),
            .log ("ERROR listing files in: " ++ (root ++ "/" ++ sub)
              ++ " (" ++ e ++ ")")] } := by
  cases s
  simp [process_subs_adb, emit, hc, hx, hf]

lemma process_subs_adb_cons_missing {env : AdbEnv} {root dr : String}
    {a b : Int} {sub : String} {rest : List String} {s : WState}
    (hc : env.cancel s.clock = false)
    (hx : env.path_exists (root ++ "/" ++ sub) = false) :
    process_subs_adb env root dr a b (sub :: rest) s =
      process_subs_adb env root dr a b rest
        (emit { s with clock := s.clock + 1 }
          (.log ("Skipping missing folder: " ++ (root ++ "/" ++ sub)))) := by
  simp [process_subs_adb, hc, hx]

lemma process_subs_adb_cancelled {env : AdbEnv} {root dr : String}
    {a b : Int} {sub : String} {rest : List String} {s : WState}
    (hc : env.cancel s.clock = true) :
    process_subs_adb env root dr a b (sub :: rest) s
      = { s with clock := s.clock + 1 } := by
  simp [process_subs_adb, hc]

lemma process_roots_adb_cons {env : AdbEnv} {dr : String} {a b : Int}
    {subfolders : List String} {root : String} {rest : List String}
    {s : WState} (hc : env.cancel s.clock = false) :
    process_roots_adb env dr a b subfolders (root :: rest) s =
      process_roots_adb env dr a b subfolders rest
        (process_subs_adb env root dr a b subfolders
          { s with clock := s.clock + 1 }) := by
  simp [process_roots_adb, hc]

lemma process_roots_adb_cancelled {env : AdbEnv} {dr : String} {a b : Int}
    {subfolders : List String} {root : String} {rest : List String}
    {s : WState} (hc : env.cancel s.clock = true) :
    process_roots_adb env dr a b subfolders (root :: rest) s
      = { s with clock := s.clock + 1 } := by
  simp [process_roots_adb, hc]

/-! ## Scanned-count accounting -/

lemma process_file_local_scanned {env : LocalEnv} {mr dr : String}
    {a b : Int} {mode root name : String} {s : WState} :
    (process_file_local env mr dr a b mode root name s).scanned
      = s.scanned + 1 := by
  rcases h : env.getmtime (pjoin root name) with e | mt
  · rw [process_file_local_stat_error h]
  · by_cases hin : a ≤ mt ∧ mt ≤ b
    · rcases htr : (if mode = "copy"
          then env.copy2 (pjoin root name)
            (unique_destination_path s.fs
              (pjoin dr (env.relpath (pjoin root name) mr)))
          else env.move (pjoin root name)
            (unique_destination_path s.fs
              (pjoin dr (env.relpath (pjoin root name) mr)))) with e | u
      · rw [process_file_local_transfer_error rfl h hin htr]
      · cases u
        rw [process_file_local_transfer_ok rfl h hin htr]
    · rw [process_file_local_filtered h hin]

lemma process_file_adb_scanned {env : AdbEnv} {root dr : String}
    {a b : Int} {remote_file : String} {s : WState} :
    (process_file_adb env root dr a b remote_file s).scanned
      = s.scanned + 1 := by
  rcases h : env.stat_mtime remote_file with e | mt
  · rw [process_file_adb_stat_error h]
  · by_cases hin : a ≤ mt ∧ mt ≤ b
    · rcases htr : env.pull remote_file
          (unique_destination_path s.fs
            (pjoin dr (adb_rel_path root remote_file))) with e | u
      · rw [process_file_adb_pull_error rfl h hin htr]
      · cases u
        rw [process_file_adb_pull_ok rfl h hin htr]
    · rw [process_file_adb_filtered h hin]

lemma process_files_local_scanned {env : LocalEnv} {mr dr : String}
    {a b : Int} {mode root : String} {names : List String} {s : WState}
    (hc : ∀ i, env.cancel i = false) :
    (process_files_local env mr dr a b mode root names s).scanned
      = s.scanned + names.length := by
  induction names generalizing s with
  | nil => rfl
  | cons n rest ih =>
    rw [process_files_local_cons (hc s.clock), ih, process_file_local_scanned]
    simp only [List.length_cons]
    omega

lemma process_walk_local_scanned {env : LocalEnv} {mr dr : String}
    {a b : Int} {mode : String} {entries : List (String × List String)}
    {s : WState} (hc : ∀ i, env.cancel i = false) :
    (process_walk_local env mr dr a b mode entries s).scanned
      = s.scanned + (entries.map fun p => p.2.length).sum := by
  induction entries generalizing s with
  | nil => simp [process_walk_local]
  | cons p rest ih =>
    cases p with
    | mk root files =>
      rw [process_walk_local_cons (hc s.clock), ih,
        process_files_local_scanned hc]
      simp only [List.map_cons, List.sum_cons]
      omega

lemma process_subs_local_scanned {env : LocalEnv} {mr dr : String}
    {a b : Int} {mode : String} {subs : List String} {s : WState}
    (hc : ∀ i, env.cancel i = false) :
    (process_subs_local env mr dr a b mode subs s).scanned
      = s.scanned + spec_enumerated_local env mr subs := by
  induction subs generalizing s with
  | nil => simp [process_subs_local, spec_enumerated_local]
  | cons sub rest ih =>
    rcases hd : env.isdir (pjoin mr sub) with _ | _
    · rw [process_subs_local_cons_missing (hc s.clock) hd, ih]
      simp [spec_enumerated_local, hd, emit]
    · rw [process_subs_local_cons_dir (hc s.clock) hd, ih,
        process_walk_local_scanned hc]
      simp [spec_enumerated_local, hd]
      try omega

lemma worker_local_scanned {env : LocalEnv} {sr dr : String} {a b : Int}
    {subs : List String} {mode : String} {s : WState}
    (hc : ∀ i, env.cancel i = false) :
    (worker_local env sr dr a b subs mode s).scanned
      = s.scanned
        + spec_enumerated_local env (detect_media_root env.isdir sr) subs := by
  unfold worker_local
  by_cases ht : estimate_total_files_local env
      (detect_media_root env.isdir sr) subs > 0 <;>
    simp only [ht, if_true, if_false, emit] <;>
    rw [show ∀ (x : WState) (ev : List Event), WState.scanned { x with events := ev } = x.scanned from fun _ _ => rfl] <;>
    rw [process_subs_local_scanned hc]

lemma process_files_adb_scanned {env : AdbEnv} {root dr : String}
    {a b : Int} {files : List String} {s : WState}
    (hc : ∀ i, env.cancel i = false) :
    (process_files_adb env root dr a b files s).scanned
      = s.scanned + files.length := by
  induction files generalizing s with
  | nil => rfl
  | cons f rest ih =>
    rw [process_files_adb_cons (hc s.clock), ih, process_file_adb_scanned]
    simp only [List.length_cons]
    omega

lemma process_subs_adb_scanned {env : AdbEnv} {root dr : String}
    {a b : Int} {subs : List String} {s : WState}
    (hc : ∀ i, env.cancel i = false) :
    (process_subs_adb env root dr a b subs s).scanned
      = s.scanned + spec_enumerated_adb_root env root subs := by
  induction subs generalizing s with
  | nil => simp [process_subs_adb, spec_enumerated_adb_root]
  | cons sub rest ih =>
    rcases hx : env.path_exists (root ++ "/" ++ sub) with _ | _
    · rw [process_subs_adb_cons_missing (hc s.clock) hx, ih]
      simp [spec_enumerated_adb_root, hx, emit]
    · rcases hf : env.find_files (root ++ "/" ++ sub) with e | lst
      · rw [process_subs_adb_cons_list_error (hc s.clock) hx hf, ih]
        simp [spec_enumerated_adb_root, hx, hf]
      · rw [process_subs_adb_cons_found (hc s.clock) hx hf, ih,
          process_files_adb_scanned hc]
        simp [spec_enumerated_adb_root, hx, hf]
        omega

lemma process_roots_adb_scanned {env : AdbEnv} {dr : String} {a b : Int}
    {subfolders roots : List String} {s : WState}
    (hc : ∀ i, env.cancel i = false) :
    (process_roots_adb env dr a b subfolders roots s).scanned
      = s.scanned + (roots.map fun root =>
          spec_enumerated_adb_root env root subfolders).sum := by
  induction roots generalizing s with
  | nil => simp [process_roots_adb]
  | cons root rest ih =>
    rw [process_roots_adb_cons (hc s.clock), ih, process_subs_adb_scanned hc]
    simp only [List.map_cons, List.sum_cons]
    omega

lemma worker_adb_scanned {env : AdbEnv} {dr : String} {a b : Int}
    {subs : List String} {s : WState}
    (hc : ∀ i, env.cancel i = false) :
    (worker_adb env dr a b subs s).scanned
      = s.scanned + spec_enumerated_adb env subs := by
  unfold worker_adb
  by_cases hr : (adb_find_whatsapp_media_roots env.path_exists).isEmpty
  · rw [if_pos hr]
    have hnil : adb_find_whatsapp_media_roots env.path_exists = [] := by
      cases h : adb_find_whatsapp_media_roots env.path_exists
      · rfl
      · rw [h] at hr
        simp [List.isEmpty] at hr
    simp [emit, spec_enumerated_adb, hnil]
  · rw [if_neg hr]
    by_cases ht : adb_estimate_total env
        (adb_find_whatsapp_media_roots env.path_exists) subs > 0 <;>
      simp only [ht, if_true, if_false, emit] <;>
      rw [show ∀ (x : WState) (ev : List Event), WState.scanned { x with events := ev } = x.scanned from fun _ _ => rfl] <;>
      rw [process_roots_adb_scanned hc] <;>
      rfl

/-! ## Trace extension -/

lemma TraceExt_refl (P : Event → Prop) (s : WState) : TraceExt P s s :=
  ⟨[], by simp, by simp⟩

lemma TraceExt_trans {P : Event → Prop} {s1 s2 s3 : WState}
    (h1 : TraceExt P s1 s2) (h2 : TraceExt P s2 s3) : TraceExt P s1 s3 := by
  obtain ⟨t1, he1, hp1⟩ := h1
  obtain ⟨t2, he2, hp2⟩ := h2
  refine ⟨t1 ++ t2, by rw [he2, he1, List.append_assoc], ?_⟩
  intro e he
  rcases List.mem_append.mp he with h | h
  · exact hp1 e h
  · exact hp2 e h

lemma TraceExt_mono {P Q : Event → Prop} (h : ∀ e, P e → Q e)
    {s s' : WState} (ht : TraceExt P s s') : TraceExt Q s s' := by
  obtain ⟨t, he, hp⟩ := ht
  exact ⟨t, he, fun e hm => h e (hp e hm)⟩

lemma TraceExt_emit {P : Event → Prop} {e : Event} (s : WState) (h : P e) :
    TraceExt P s (emit s e) :=
  ⟨[e], rfl, by simpa using h⟩

lemma TraceExt_clockbump (P : Event → Prop) (s : WState) (c : Nat) :
    TraceExt P s { s with clock := c } :=
  ⟨[], by simp, by simp⟩

lemma engineEvent_ne_done {e : Event} (h : engineEvent e) :
    e ≠ Event.done := by
  cases e <;> simp_all [engineEvent]

lemma engineEvent_ne_indeterminate {e : Event} (h : engineEvent e) :
    e ≠ Event.progress_indeterminate := by
  cases e <;> simp_all [engineEvent]

lemma process_file_local_trace (env : LocalEnv) (mr dr : String)
    (a b : Int) (mode root name : String) (s : WState) :
    TraceExt engineEvent s (process_file_local env mr dr a b mode root name s) := by
  rcases h : env.getmtime (pjoin root name) with e | mt
  · rw [process_file_local_stat_error h]
    exact ⟨_, rfl, by simp [engineEvent]⟩
  · by_cases hin : a ≤ mt ∧ mt ≤ b
    · rcases htr : (if mode = "copy"
          then env.copy2 (pjoin root name)
            (unique_destination_path s.fs
              (pjoin dr (env.relpath (pjoin root name) mr)))
          else env.move (pjoin root name)
            (unique_destination_path s.fs
              (pjoin dr (env.relpath (pjoin root name) mr)))) with e | u
      · rw [process_file_local_transfer_error rfl h hin htr]
        exact ⟨_, rfl, by simp [engineEvent]⟩
      · cases u
        rw [process_file_local_transfer_ok rfl h hin htr]
        exact ⟨_, rfl, by simp [engineEvent]⟩
    · rw [process_file_local_filtered h hin]
      exact ⟨_, rfl, by simp [engineEvent]⟩

lemma process_file_adb_trace (env : AdbEnv) (root dr : String)
    (a b : Int) (remote_file : String) (s : WState) :
    TraceExt engineEvent s (process_file_adb env root dr a b remote_file s) := by
  rcases h : env.stat_mtime remote_file with e | mt
  · rw [process_file_adb_stat_error h]
    exact ⟨_, rfl, by simp [engineEvent]⟩
  · by_cases hin : a ≤ mt ∧ mt ≤ b
    · rcases htr : env.pull remote_file
          (unique_destination_path s.fs
            (pjoin dr (adb_rel_path root remote_file))) with e | u
      · rw [process_file_adb_pull_error rfl h hin htr]
        exact ⟨_, rfl, by simp [engineEvent]⟩
      · cases u
        rw [process_file_adb_pull_ok rfl h hin htr]
        exact ⟨_, rfl, by simp [engineEvent]⟩
    · rw [process_file_adb_filtered h hin]
      exact ⟨_, rfl, by simp [engineEvent]⟩

lemma process_files_local_trace (env : LocalEnv) (mr dr : String)
    (a b : Int) (mode root : String) (names : List String) (s : WState) :
    TraceExt engineEvent s
      (process_files_local env mr dr a b mode root names s) := by
  induction names generalizing s with
  | nil => exact TraceExt_refl _ _
  | cons n rest ih =>
    rcases hc : env.cancel s.clock with _ | _
    · rw [process_files_local_cons hc]
      exact TraceExt_trans (TraceExt_trans ⟨[], by simp, by simp⟩
        (process_file_local_trace env mr dr a b mode root n _)) (ih _)
    · rw [process_files_local_cancelled hc]
      exact ⟨[], by simp, by simp⟩

lemma process_walk_local_trace (env : LocalEnv) (mr dr : String)
    (a b : Int) (mode : String) (entries : List (String × List String))
    (s : WState) :
    TraceExt engineEvent s
      (process_walk_local env mr dr a b mode entries s) := by
  induction entries generalizing s with
  | nil => exact TraceExt_refl _ _
  | cons p rest ih =>
    cases p with
    | mk root files =>
      rcases hc : env.cancel s.clock with _ | _
      · rw [process_walk_local_cons hc]
        exact TraceExt_trans (TraceExt_trans ⟨[], by simp, by simp⟩
          (process_files_local_trace env mr dr a b mode root files _)) (ih _)
      · rw [process_walk_local_cancelled hc]
        exact ⟨[], by simp, by simp⟩

lemma process_subs_local_trace (env : LocalEnv) (mr dr : String)
    (a b : Int) (mode : String) (subs : List String) (s : WState) :
    TraceExt engineEvent s
      (process_subs_local env mr dr a b mode subs s) := by
  induction subs generalizing s with
  | nil => exact TraceExt_refl _ _
  | cons sub rest ih =>
    rcases hc : env.cancel s.clock with _ | _
    · rcases hd : env.isdir (pjoin mr sub) with _ | _
      · rw [process_subs_local_cons_missing hc hd]
        exact TraceExt_trans (TraceExt_trans (TraceExt_clockbump _ s _)
          (TraceExt_emit _ (by simp [engineEvent]))) (ih _)
      · rw [process_subs_local_cons_dir hc hd]
        exact TraceExt_trans (TraceExt_trans ⟨[], by simp, by simp⟩
          (process_walk_local_trace env mr dr a b mode _ _)) (ih _)
    · rw [process_subs_local_cancelled hc]
      exact ⟨[], by simp, by simp⟩

lemma process_files_adb_trace (env : AdbEnv) (root dr : String)
    (a b : Int) (files : List String) (s : WState) :
    TraceExt engineEvent s
      (process_files_adb env root dr a b files s) := by
  induction files generalizing s with
  | nil => exact TraceExt_refl _ _
  | cons f rest ih =>
    rcases hc : env.cancel s.clock with _ | _
    · rw [process_files_adb_cons hc]
      exact TraceExt_trans (TraceExt_trans ⟨[], by simp, by simp⟩
        (process_file_adb_trace env root dr a b f _)) (ih _)
    · rw [process_files_adb_cancelled hc]
      exact ⟨[], by simp, by simp⟩

lemma process_subs_adb_trace (env : AdbEnv) (root dr : String)
    (a b : Int) (subs : List String) (s : WState) :
    TraceExt engineEvent s
      (process_subs_adb env root dr a b subs s) := by
  induction subs generalizing s with
  | nil => exact TraceExt_refl _ _
  | cons sub rest ih =>
    rcases hc : env.cancel s.clock with _ | _
    · rcases hx : env.path_exists (root ++ "/" ++ sub) with _ | _
      · rw [process_subs_adb_cons_missing hc hx]
        exact TraceExt_trans (TraceExt_trans (TraceExt_clockbump _ s _)
          (TraceExt_emit _ (by simp [engineEvent]))) (ih _)
      · rcases hf : env.find_files (root ++ "/" ++ sub) with e | lst
        · rw [process_subs_adb_cons_list_error hc hx hf]
          exact TraceExt_trans
            (⟨[Event.errors (s.errors + 1),
               Event.log ("ERROR listing files in: " ++ (root ++ "/" ++ sub)
                 ++ " (" ++ e ++ ")")], by simp, by simp [engineEvent]⟩ :
              TraceExt engineEvent s _) (ih _)
        · rw [process_subs_adb_cons_found hc hx hf]
          exact TraceExt_trans (TraceExt_trans ⟨[], by simp, by simp⟩
            (process_files_adb_trace env root dr a b lst _)) (ih _)
    · rw [process_subs_adb_cancelled hc]
      exact ⟨[], by simp, by simp⟩

lemma process_roots_adb_trace (env : AdbEnv) (dr : String) (a b : Int)
    (subfolders roots : List String) (s : WState) :
    TraceExt engineEvent s
      (process_roots_adb env dr a b subfolders roots s) := by
  induction roots generalizing s with
  | nil => exact TraceExt_refl _ _
  | cons root rest ih =>
    rcases hc : env.cancel s.clock with _ | _
    · rw [process_roots_adb_cons hc]
      exact TraceExt_trans (TraceExt_trans ⟨[], by simp, by simp⟩
        (process_subs_adb_trace env root dr a b subfolders _)) (ih _)
    · rw [process_roots_adb_cancelled hc]
      exact ⟨[], by simp, by simp⟩

/-- The whole local worker only appends events, none of them `done`. -/
lemma worker_local_trace (env : LocalEnv) (sr dr : String) (a b : Int)
    (subs : List String) (mode : String) (s : WState) :
    TraceExt (fun e => e ≠ Event.done) s
      (worker_local env sr dr a b subs mode s) := by
  unfold worker_local
  by_cases ht : estimate_total_files_local env
      (detect_media_root env.isdir sr) subs > 0 <;>
    simp only [ht, if_true, if_false] <;>
    exact TraceExt_trans (TraceExt_trans
      (TraceExt_trans (TraceExt_trans (TraceExt_emit _ (by simp))
        (TraceExt_emit _ (by simp))) (TraceExt_emit _ (by simp)))
      (TraceExt_mono (fun e he => engineEvent_ne_done he)
        (process_subs_local_trace env _ dr a b mode subs _)))
      (TraceExt_trans (TraceExt_clockbump _ _ _)
        (TraceExt_emit _ (by simp)))

/-- The whole ADB worker only appends events, none of them `done`. -/
lemma worker_adb_trace (env : AdbEnv) (dr : String) (a b : Int)
    (subs : List String) (s : WState) :
    TraceExt (fun e => e ≠ Event.done) s
      (worker_adb env dr a b subs s) := by
  unfold worker_adb
  by_cases hr : (adb_find_whatsapp_media_roots env.path_exists).isEmpty
  · rw [if_pos hr]
    exact TraceExt_trans (TraceExt_emit _ (by simp))
      (TraceExt_emit _ (by simp))
  · rw [if_neg hr]
    by_cases ht : adb_estimate_total env
        (adb_find_whatsapp_media_roots env.path_exists) subs > 0 <;>
      simp only [ht, if_true, if_false] <;>
      exact TraceExt_trans (TraceExt_trans
        (TraceExt_trans (TraceExt_trans (TraceExt_emit _ (by simp))
          (TraceExt_emit _ (by simp))) (TraceExt_emit _ (by simp)))
        (TraceExt_mono (fun e he => engineEvent_ne_done he)
          (process_roots_adb_trace env dr a b subs _ _)))
        (TraceExt_trans (TraceExt_clockbump _ _ _)
          (TraceExt_emit _ (by simp)))

/-! ## Preservation of the counter-event invariant -/

lemma counterInv_append {s s' : WState} {t : List Event}
    (h : counterInv s)
    (hev : s'.events = s.events ++ t)
    (h1 : s.scanned ≤ s'.scanned) (h2 : s.matched ≤ s'.matched)
    (h3 : s.errors ≤ s'.errors)
    (ht1 : List.Pairwise (· ≤ ·) (scannedVals t))
    (ht2 : List.Pairwise (· ≤ ·) (matchedVals t))
    (ht3 : List.Pairwise (· ≤ ·) (errorVals t))
    (hb1 : ∀ n ∈ scannedVals t, s.scanned ≤ n ∧ n ≤ s'.scanned)
    (hb2 : ∀ n ∈ matchedVals t, s.matched ≤ n ∧ n ≤ s'.matched)
    (hb3 : ∀ n ∈ errorVals t, s.errors ≤ n ∧ n ≤ s'.errors) :
    counterInv s' := by
  obtain ⟨p1, p2, p3, b1, b2, b3⟩ := h
  unfold counterInv
  rw [hev]
  simp only [scannedVals, matchedVals, errorVals, List.filterMap_append]
    at p1 p2 p3 b1 b2 b3 ht1 ht2 ht3 hb1 hb2 hb3 ⊢
  refine ⟨?_, ?_, ?_, ?_, ?_, ?_⟩
  · rw [List.pairwise_append]
    exact ⟨p1, ht1, fun x hx y hy => le_trans (b1 x hx) (hb1 y hy).1⟩
  · rw [List.pairwise_append]
    exact ⟨p2, ht2, fun x hx y hy => le_trans (b2 x hx) (hb2 y hy).1⟩
  · rw [List.pairwise_append]
    exact ⟨p3, ht3, fun x hx y hy => le_trans (b3 x hx) (hb3 y hy).1⟩
  · intro n hn
    rcases List.mem_append.mp hn with hn | hn
    · exact le_trans (b1 n hn) h1
    · exact (hb1 n hn).2
  · intro n hn
    rcases List.mem_append.mp hn with hn | hn
    · exact le_trans (b2 n hn) h2
    · exact (hb2 n hn).2
  · intro n hn
    rcases List.mem_append.mp hn with hn | hn
    · exact le_trans (b3 n hn) h3
    · exact (hb3 n hn).2

lemma counterInv_clockbump {s : WState} {c : Nat} (h : counterInv s) :
    counterInv { s with clock := c } := h

lemma counterInv_log {s : WState} {msg : String} (h : counterInv s) :
    counterInv (emit s (.log msg)) := by
  refine counterInv_append h rfl (le_refl _) (le_refl _) (le_refl _)
    ?_ ?_ ?_ ?_ ?_ ?_ <;> simp [scannedVals, matchedVals, errorVals]

lemma counterInv_process_file_local {env : LocalEnv} {mr dr : String}
    {a b : Int} {mode root name : String} {s : WState}
    (h : counterInv s) :
    counterInv (process_file_local env mr dr a b mode root name s) := by
  rcases hm : env.getmtime (pjoin root name) with e | mt
  · rw [process_file_local_stat_error hm]
    refine counterInv_append h rfl ?_ ?_ ?_ ?_ ?_ ?_ ?_ ?_ ?_ <;>
      simp [scannedVals, matchedVals, errorVals]
  · by_cases hin : a ≤ mt ∧ mt ≤ b
    · rcases htr : (if mode = "copy"
          then env.copy2 (pjoin root name)
            (unique_destination_path s.fs
              (pjoin dr (env.relpath (pjoin root name) mr)))
          else env.move (pjoin root name)
            (unique_destination_path s.fs
              (pjoin dr (env.relpath (pjoin root name) mr)))) with e | u
      · rw [process_file_local_transfer_error rfl hm hin htr]
        refine counterInv_append h rfl ?_ ?_ ?_ ?_ ?_ ?_ ?_ ?_ ?_ <;>
          simp [scannedVals, matchedVals, errorVals]
      · cases u
        rw [process_file_local_transfer_ok rfl hm hin htr]
        refine counterInv_append h rfl ?_ ?_ ?_ ?_ ?_ ?_ ?_ ?_ ?_ <;>
          simp [scannedVals, matchedVals, errorVals]
    · rw [process_file_local_filtered hm hin]
      refine counterInv_append h rfl ?_ ?_ ?_ ?_ ?_ ?_ ?_ ?_ ?_ <;>
        simp [scannedVals, matchedVals, errorVals]

lemma counterInv_process_file_adb {env : AdbEnv} {root dr : String}
    {a b : Int} {remote_file : String} {s : WState}
    (h : counterInv s) :
    counterInv (process_file_adb env root dr a b remote_file s) := by
  rcases hm : env.stat_mtime remote_file with e | mt
  · rw [process_file_adb_stat_error hm]
    refine counterInv_append h rfl ?_ ?_ ?_ ?_ ?_ ?_ ?_ ?_ ?_ <;>
      simp [scannedVals, matchedVals, errorVals]
  · by_cases hin : a ≤ mt ∧ mt ≤ b
    · rcases htr : env.pull remote_file
          (unique_destination_path s.fs
            (pjoin dr (adb_rel_path root remote_file))) with e | u
      · rw [process_file_adb_pull_error rfl hm hin htr]
        refine counterInv_append h rfl ?_ ?_ ?_ ?_ ?_ ?_ ?_ ?_ ?_ <;>
          simp [scannedVals, matchedVals, errorVals]
      · cases u
        rw [process_file_adb_pull_ok rfl hm hin htr]
        refine counterInv_append h rfl ?_ ?_ ?_ ?_ ?_ ?_ ?_ ?_ ?_ <;>
          simp [scannedVals, matchedVals, errorVals]
    · rw [process_file_adb_filtered hm hin]
      refine counterInv_append h rfl ?_ ?_ ?_ ?_ ?_ ?_ ?_ ?_ ?_ <;>
        simp [scannedVals, matchedVals, errorVals]

lemma counterInv_process_files_local {env : LocalEnv} {mr dr : String}
    {a b : Int} {mode root : String} {names : List String} {s : WState}
    (h : counterInv s) :
    counterInv (process_files_local env mr dr a b mode root names s) := by
  induction names generalizing s with
  | nil => exact h
  | cons n rest ih =>
    rcases hc : env.cancel s.clock with _ | _
    · rw [process_files_local_cons hc]
      exact ih (counterInv_process_file_local (counterInv_clockbump h))
    · rw [process_files_local_cancelled hc]
      exact counterInv_clockbump h

lemma counterInv_process_walk_local {env : LocalEnv} {mr dr : String}
    {a b : Int} {mode : String} {entries : List (String × List String)}
    {s : WState} (h : counterInv s) :
    counterInv (process_walk_local env mr dr a b mode entries s) := by
  induction entries generalizing s with
  | nil => exact h
  | cons p rest ih =>
    cases p with
    | mk root files =>
      rcases hc : env.cancel s.clock with _ | _
      · rw [process_walk_local_cons hc]
        exact ih (counterInv_process_files_local (counterInv_clockbump h))
      · rw [process_walk_local_cancelled hc]
        exact counterInv_clockbump h

lemma counterInv_process_subs_local {env : LocalEnv} {mr dr : String}
    {a b : Int} {mode : String} {subs : List String} {s : WState}
    (h : counterInv s) :
    counterInv (process_subs_local env mr dr a b mode subs s) := by
  induction subs generalizing s with
  | nil => exact h
  | cons sub rest ih =>
    rcases hc : env.cancel s.clock with _ | _
    · rcases hd : env.isdir (pjoin mr sub) with _ | _
      · rw [process_subs_local_cons_missing hc hd]
        exact ih (counterInv_log (counterInv_clockbump h))
      · rw [process_subs_local_cons_dir hc hd]
        exact ih (counterInv_process_walk_local (counterInv_clockbump h))
    · rw [process_subs_local_cancelled hc]
      exact counterInv_clockbump h

lemma counterInv_process_files_adb {env : AdbEnv} {root dr : String}
    {a b : Int} {files : List String} {s : WState}
    (h : counterInv s) :
    counterInv (process_files_adb env root dr a b files s) := by
  induction files generalizing s with
  | nil => exact h
  | cons f rest ih =>
    rcases hc : env.cancel s.clock with _ | _
    · rw [process_files_adb_cons hc]
      exact ih (counterInv_process_file_adb (counterInv_clockbump h))
    · rw [process_files_adb_cancelled hc]
      exact counterInv_clockbump h

lemma counterInv_process_subs_adb {env : AdbEnv} {root dr : String}
    {a b : Int} {subs : List String} {s : WState}
    (h : counterInv s) :
    counterInv (process_subs_adb env root dr a b subs s) := by
  induction subs generalizing s with
  | nil => exact h
  | cons sub rest ih =>
    rcases hc : env.cancel s.clock with _ | _
    · rcases hx : env.path_exists (root ++ "/" ++ sub) with _ | _
      · rw [process_subs_adb_cons_missing hc hx]
        exact ih (counterInv_log (counterInv_clockbump h))
      · rcases hf : env.find_files (root ++ "/" ++ sub) with e | lst
        · rw [process_subs_adb_cons_list_error hc hx hf]
          refine ih (counterInv_append h rfl ?_ ?_ ?_ ?_ ?_ ?_ ?_ ?_ ?_) <;>
            simp [scannedVals, matchedVals, errorVals]
        · rw [process_subs_adb_cons_found hc hx hf]
          exact ih (counterInv_process_files_adb (counterInv_clockbump h))
    · rw [process_subs_adb_cancelled hc]
      exact counterInv_clockbump h

lemma counterInv_process_roots_adb {env : AdbEnv} {dr : String}
    {a b : Int} {subfolders roots : List String} {s : WState}
    (h : counterInv s) :
    counterInv (process_roots_adb env dr a b subfolders roots s) := by
  induction roots generalizing s with
  | nil => exact h
  | cons root rest ih =>
    rcases hc : env.cancel s.clock with _ | _
    · rw [process_roots_adb_cons hc]
      exact ih (counterInv_process_subs_adb (counterInv_clockbump h))
    · rw [process_roots_adb_cancelled hc]
      exact counterInv_clockbump h

lemma counterInv_progress {s : WState} {ev : Event}
    (hev : (∀ n, ev ≠ .scanned n) ∧ (∀ n, ev ≠ .matched n) ∧
      (∀ n, ev ≠ .errors n))
    (h : counterInv s) : counterInv (emit s ev) := by
  refine counterInv_append h rfl (le_refl _) (le_refl _) (le_refl _)
    ?_ ?_ ?_ ?_ ?_ ?_ <;>
    cases ev <;>
    simp [scannedVals, matchedVals, errorVals] <;>
    first
      | exact absurd rfl (hev.1 _)
      | exact absurd rfl (hev.2.1 _)
      | exact absurd rfl (hev.2.2 _)

lemma counterInv_worker_local {env : LocalEnv} {sr dr : String}
    {a b : Int} {subs : List String} {mode : String} {s : WState}
    (h : counterInv s) :
    counterInv (worker_local env sr dr a b subs mode s) := by
  unfold worker_local
  by_cases ht : estimate_total_files_local env
      (detect_media_root env.isdir sr) subs > 0 <;>
    simp only [ht, if_true, if_false] <;>
    exact counterInv_log (counterInv_clockbump
      (counterInv_process_subs_local
        (counterInv_log (counterInv_progress (by simp) (counterInv_log h)))))

lemma counterInv_worker_adb {env : AdbEnv} {dr : String} {a b : Int}
    {subs : List String} {s : WState} (h : counterInv s) :
    counterInv (worker_adb env dr a b subs s) := by
  unfold worker_adb
  by_cases hr : (adb_find_whatsapp_media_roots env.path_exists).isEmpty
  · rw [if_pos hr]
    exact counterInv_log (counterInv_log h)
  · rw [if_neg hr]
    by_cases ht : adb_estimate_total env
        (adb_find_whatsapp_media_roots env.path_exists) subs > 0 <;>
      simp only [ht, if_true, if_false] <;>
      exact counterInv_log (counterInv_clockbump
        (counterInv_process_roots_adb
          (counterInv_log (counterInv_progress (by simp) (counterInv_log h)))))

lemma counterInv_initState (fs : Fs) : counterInv (initState fs) := by
  refine ⟨?_, ?_, ?_, ?_, ?_, ?_⟩ <;>
    simp [initState, scannedVals, matchedVals, errorVals]

/-! ## Estimate-cap behaviour (claim C7) -/

/-- The early `return total` of `_estimate_total_files_local` fires only
when the running total has already exceeded 500000, and it returns that
running total (not the cap). -/
lemma estimate_walk_inl {entries : List (String × List String)} :
    ∀ {total t : Nat}, estimate_walk entries total = .inl t → t > 500000 := by
  induction entries with
  | nil =>
    intro total t h
    simp [estimate_walk] at h
  | cons p rest ih =>
    intro total t h
    cases p with
    | mk d files =>
      rw [estimate_walk] at h
      by_cases hgt : total + files.length > 500000
      · rw [if_pos hgt] at h
        cases h
        exact hgt
      · rw [if_neg hgt] at h
        exact ih h

/-- Once the walk of the first subfolder has crossed the cap, the
estimate returns immediately: the remaining subfolders are not walked
and the returned value is the running total at the crossing. -/
lemma estimate_subs_early {env : LocalEnv} {mr sub : String}
    {rest : List String} {t : Nat}
    (hd : env.isdir (pjoin mr sub) = true)
    (hw : estimate_walk (env.walk (pjoin mr sub)) 0 = .inl t) :
    estimate_total_files_local env mr (sub :: rest) = t := by
  unfold estimate_total_files_local
  rw [estimate_subs]
  simp [hd, hw]

lemma estimate_walk_C7 :
    estimate_walk [("m/s", List.replicate 500001 "f")] 0 = .inl 500001 := by
  rw [estimate_walk]
  rw [List.length_replicate, Nat.zero_add,
    if_pos (by norm_num : (500001 : Nat) > 500000)]

lemma estimate_C7_value : estimate_total_files_local envC7 "m" ["s"] = 500001 :=
  estimate_subs_early rfl estimate_walk_C7

/-- When the upfront estimate is positive, `_worker_local` reports it
via a determinate `progress_setup` event and never emits
`progress_indeterminate`. -/
lemma worker_local_progress (env : LocalEnv) (sr dr : String) (a b : Int)
    (subs : List String) (mode : String) (s : WState)
    (ht : estimate_total_files_local env (detect_media_root env.isdir sr)
      subs > 0) :
    ∃ tr, (worker_local env sr dr a b subs mode s).events = s.events ++ tr ∧
      Event.progress_setup (estimate_total_files_local env
        (detect_media_root env.isdir sr) subs) ∈ tr ∧
      Event.progress_indeterminate ∉ tr := by
  unfold worker_local
  simp only [ht, if_true]
  obtain ⟨tl, hevl, hpl⟩ := process_subs_local_trace env
    (detect_media_root env.isdir sr) dr a b mode subs
    (emit (emit (emit s (.log ("Media root detected: "
        ++ detect_media_root env.isdir sr)))
      (.progress_setup (estimate_total_files_local env
        (detect_media_root env.isdir sr) subs)))
      (.log ("Estimated total files to scan: "
        ++ Nat.repr (estimate_total_files_local env
          (detect_media_root env.isdir sr) subs))))
  refine ⟨[Event.log ("Media root detected: "
        ++ detect_media_root env.isdir sr),
      Event.progress_setup (estimate_total_files_local env
        (detect_media_root env.isdir sr) subs),
      Event.log ("Estimated total files to scan: "
        ++ Nat.repr (estimate_total_files_local env
          (detect_media_root env.isdir sr) subs))]
      ++ tl
      ++ [Event.log (if env.cancel (process_subs_local env
            (detect_media_root env.isdir sr) dr a b mode subs
            (emit (emit (emit s (.log ("Media root detected: "
                ++ detect_media_root env.isdir sr)))
              (.progress_setup (estimate_total_files_local env
                (detect_media_root env.isdir sr) subs)))
              (.log ("Estimated total files to scan: "
                ++ Nat.repr (estimate_total_files_local env
                  (detect_media_root env.isdir sr) subs))))).clock
          then "Cancelled by user."
          else "Export complete (Local Folder mode).")], ?_, ?_, ?_⟩
  · simp only [emit] at hevl ⊢
    rw [hevl]
    simp
  · simp
  · intro hmem
    simp only [List.mem_append, List.mem_cons, List.not_mem_nil,
      or_false] at hmem
    rcases hmem with ((h | h | h) | h) | h
    · exact Event.noConfusion h
    · exact Event.noConfusion h
    · exact Event.noConfusion h
    · exact engineEvent_ne_indeterminate (hpl _ h) rfl
    · exact Event.noConfusion h

/-! ## Claim C2 -/

/-- C2: `unique_destination_path` returns a path that does not currently
exist — the proposed path itself when it is free, otherwise the first
free `__dup{i}`-suffixed candidate (all smaller indices being taken) —
so it never overwrites an existing file; and applying it again to the
same proposed path once the first result exists never returns the same
path twice. -/
theorem C2_unique_destination_path (fs fs' : Fs) (p : String)
    (hin : unique_destination_path fs p ∈ fs') :
    unique_destination_path fs p ∉ fs ∧
    (p ∉ fs → unique_destination_path fs p = p) ∧
    (p ∈ fs → ∃ k, 1 ≤ k ∧
      unique_destination_path fs p
        = dupCandidate (splitext p).1 (splitext p).2 k ∧
      (∀ j, 1 ≤ j → j < k →
        dupCandidate (splitext p).1 (splitext p).2 j ∈ fs)) ∧
    unique_destination_path fs' p ≠ unique_destination_path fs p := by
  refine ⟨unique_destination_path_free fs p, ?_, ?_, ?_⟩
  · intro hp
    simp [unique_destination_path, hp]
  · intro hp
    obtain ⟨j, h1, h2, h3⟩ := exists_free_index fs (splitext p).1 (splitext p).2
    obtain ⟨k, hk1, hk2, hk3⟩ :=
      (findFree_spec fs (splitext p).1 (splitext p).2 (fs.length + 1) 1
        ⟨j, h1, h2, h3⟩).2
    refine ⟨k, hk1, ?_, hk3⟩
    rw [show unique_destination_path fs p
        = findFree fs (splitext p).1 (splitext p).2 1 (fs.length + 1) by
      simp [unique_destination_path, hp]]
    exact hk2
  · intro heq
    have := unique_destination_path_free fs' p
    rw [heq] at this
    exact this hin

theorem C2_unique_destination_path_witness :
    unique_destination_path ["a.txt"] "a.txt" ∉ ["a.txt"] ∧
      unique_destination_path ["a__dup1.txt", "a.txt"] "a.txt"
        ≠ unique_destination_path ["a.txt"] "a.txt" :=
  ⟨(C2_unique_destination_path ["a.txt"] ["a__dup1.txt", "a.txt"] "a.txt"
      (by decide)).1,
   (C2_unique_destination_path ["a.txt"] ["a__dup1.txt", "a.txt"] "a.txt"
      (by decide)).2.2.2⟩

/-! ## Claim C6 -/

/-- C6: requesting move mode together with the ADB backend is rejected
by input validation (a `ValueError`, whatever else the inputs contain),
and therefore `_on_start` never starts the worker thread, so the engine
is never entered and no device-bridge call is made for the run. -/
theorem C6_move_adb_rejected (env : ValidateEnv) (fs : Fs) (inp : Inputs)
    (hsrc : pyStrip inp.var_source_mode = "adb") (hmode : inp.var_mode = "move") :
    (∃ msg, (validate_inputs env fs inp).1 = .error msg) ∧
      (on_start env fs inp).1 = none := by
  have h0 : (validate_inputs env fs inp).1.isOk = false := by
    unfold validate_inputs
    rw [hsrc, hmode]
    repeat' first
      | rfl
      | (dsimp only)
      | split
    all_goals simp_all
  have h1 : ∃ msg, (validate_inputs env fs inp).1 = .error msg := by
    rcases h : (validate_inputs env fs inp).1 with m | c
    · exact ⟨m, rfl⟩
    · rw [h] at h0
      simp [Except.isOk, Except.toBool] at h0
  obtain ⟨msg, hmsg⟩ := h1
  refine ⟨⟨msg, hmsg⟩, ?_⟩
  unfold on_start
  rcases hv : validate_inputs env fs inp with ⟨r, fs2⟩
  rw [hv] at hmsg
  simp only at hmsg
  rw [hmsg]

theorem C6_move_adb_rejected_witness :
    (on_start
      ⟨fun _ => some 0, fun t => t, fun _ => true⟩ []
      ⟨"adb", "dev", "", "d", "2025-09-17", "2025-12-17", [("x", true)],
        "move"⟩).1 = none :=
  (C6_move_adb_rejected _ _ _ (by decide) rfl).2

/-! ## Claim C10 -/

/-- C10: once the source-mode and non-empty-destination checks pass,
`_validate_inputs` has already created the destination directory before
parsing the dates or checking the subfolder selection / export mode /
device / source folder, so the filesystem after validation is
`ensure_dir fs dst` on every outcome — in particular a request rejected
by a later check has still created the destination directory, and if the
directory did not exist before, validation changed the filesystem even
though it rejected the request. -/
theorem C10_validation_side_effect (env : ValidateEnv) (fs : Fs) (inp : Inputs)
    (hsrc : pyStrip inp.var_source_mode = "adb" ∨ pyStrip inp.var_source_mode = "local")
    (hdst : pyStrip inp.var_dest ≠ "") :
    (validate_inputs env fs inp).2 = ensure_dir fs (pyStrip inp.var_dest) ∧
      (pyStrip inp.var_dest ∉ fs → (validate_inputs env fs inp).2 ≠ fs) := by
  have h2 : (validate_inputs env fs inp).2 = ensure_dir fs (pyStrip inp.var_dest) := by
    unfold validate_inputs
    rw [if_neg (not_not_intro hsrc), if_neg hdst]
    repeat' first
      | rfl
      | (dsimp only)
      | split
  refine ⟨h2, ?_⟩
  intro hnot heq
  rw [h2] at heq
  unfold ensure_dir at heq
  rw [if_neg hnot] at heq
  exact absurd (congrArg List.length heq) (by simp)

theorem C10_validation_side_effect_witness :
    (validate_inputs ⟨fun _ => none, fun t => t, fun _ => true⟩ []
        ⟨"local", "", "src", "d", "not-a-date", "also-bad", [("x", true)],
          "copy"⟩).2 = ensure_dir [] "d" ∧
      (validate_inputs ⟨fun _ => none, fun t => t, fun _ => true⟩ []
        ⟨"local", "", "src", "d", "not-a-date", "also-bad", [("x", true)],
          "copy"⟩).2 ≠ [] :=
  ⟨(C10_validation_side_effect _ _ _ (by right; decide) (by decide)).1,
   (C10_validation_side_effect _ _ _ (by right; decide) (by decide)).2
     (by decide)⟩

/-! ## Claim C1 -/

/-- C1: for every scanned file whose modification time resolves
successfully, a transfer (adb pull / copy / move) is attempted if and
only if the modification time lies inside the inclusive range
`[start, end]`: inside the range exactly one transfer attempt occurs
(with the computed collision-safe destination), and strictly outside no
transfer call occurs and the exported counter does not increase.  Stated
for the per-file step of both workers. -/
theorem C1_date_filter_gates_transfer
    (lenv : LocalEnv) (aenv : AdbEnv) (mr dr aroot adr : String)
    (a b a2 b2 : Int) (mode root name remote_file : String)
    (s t : WState) (mtl mta : Int)
    (hml : lenv.getmtime (pjoin root name) = .ok mtl)
    (hma : aenv.stat_mtime remote_file = .ok mta) :
    (((a ≤ mtl ∧ mtl ≤ b) →
      (process_file_local lenv mr dr a b mode root name s).transfers
        = s.transfers ++ [(pjoin root name,
            unique_destination_path s.fs
              (pjoin dr (lenv.relpath (pjoin root name) mr)))]) ∧
     (¬ (a ≤ mtl ∧ mtl ≤ b) →
      (process_file_local lenv mr dr a b mode root name s).transfers
          = s.transfers ∧
        (process_file_local lenv mr dr a b mode root name s).matched
          = s.matched)) ∧
    (((a2 ≤ mta ∧ mta ≤ b2) →
      (process_file_adb aenv aroot adr a2 b2 remote_file t).transfers
        = t.transfers ++ [(remote_file,
            unique_destination_path t.fs
              (pjoin adr (adb_rel_path aroot remote_file)))]) ∧
     (¬ (a2 ≤ mta ∧ mta ≤ b2) →
      (process_file_adb aenv aroot adr a2 b2 remote_file t).transfers
          = t.transfers ∧
        (process_file_adb aenv aroot adr a2 b2 remote_file t).matched
          = t.matched)) := by
  constructor
  · constructor
    · intro hin
      rcases htr : (if mode = "copy"
          then lenv.copy2 (pjoin root name)
            (unique_destination_path s.fs
              (pjoin dr (lenv.relpath (pjoin root name) mr)))
          else lenv.move (pjoin root name)
            (unique_destination_path s.fs
              (pjoin dr (lenv.relpath (pjoin root name) mr)))) with e | u
      · rw [process_file_local_transfer_error rfl hml hin htr]
      · cases u
        rw [process_file_local_transfer_ok rfl hml hin htr]
    · intro hout
      rw [process_file_local_filtered hml hout]
      exact ⟨rfl, rfl⟩
  · constructor
    · intro hin
      rcases htr : aenv.pull remote_file
          (unique_destination_path t.fs
            (pjoin adr (adb_rel_path aroot remote_file))) with e | u
      · rw [process_file_adb_pull_error rfl hma hin htr]
      · cases u
        rw [process_file_adb_pull_ok rfl hma hin htr]
    · intro hout
      rw [process_file_adb_filtered hma hout]
      exact ⟨rfl, rfl⟩

theorem C1_date_filter_gates_transfer_witness :
    ((process_file_local lenvW "m" "d" 0 10 "copy" "r" "f1"
        (initState [])).transfers
      = (initState []).transfers ++ [(pjoin "r" "f1",
          unique_destination_path (initState []).fs
            (pjoin "d" (lenvW.relpath (pjoin "r" "f1") "m")))]) ∧
    ((process_file_adb aenvW "ar" "ad" 20 30 "g1"
        (initState [])).transfers = (initState []).transfers ∧
     (process_file_adb aenvW "ar" "ad" 20 30 "g1"
        (initState [])).matched = (initState []).matched) :=
  ⟨(C1_date_filter_gates_transfer lenvW aenvW "m" "d" "ar" "ad" 0 10 20 30
      "copy" "r" "f1" "g1" (initState []) (initState []) 5 5 rfl rfl).1.1
      (by decide),
   (C1_date_filter_gates_transfer lenvW aenvW "m" "d" "ar" "ad" 0 10 20 30
      "copy" "r" "f1" "g1" (initState []) (initState []) 5 5 rfl rfl).2.2
      (by decide)⟩

/-! ## Claim C5 -/

/-- C5: every per-item failure — listing a subfolder (remote backend),
resolving a modification time, or transferring a file — increments the
error counter by exactly one, emits an error-count event and a log line,
leaves the exported counter unchanged for that item, and processing
continues with the next item: the enclosing loops keep running, so the
run never aborts because of a per-item error. -/
theorem C5_per_item_errors :
    (∀ (env : LocalEnv) (mr dr : String) (a b : Int) (mode root name : String)
        (s : WState) (e : String),
      env.getmtime (pjoin root name) = .error e →
      (process_file_local env mr dr a b mode root name s).errors = s.errors + 1 ∧
      (process_file_local env mr dr a b mode root name s).matched = s.matched ∧
      (process_file_local env mr dr a b mode root name s).events
        = s.events ++ [.scanned (s.scanned + 1), .progress_tick 1,
            .errors (s.errors + 1),
            .log ("ERROR reading time: " ++ pjoin root name ++ " (" ++ e ++ ")")]) ∧
    (∀ (env : LocalEnv) (mr dr : String) (a b : Int) (mode root name : String)
        (s : WState) (mtime : Int) (dst e : String),
      dst = unique_destination_path s.fs
        (pjoin dr (env.relpath (pjoin root name) mr)) →
      env.getmtime (pjoin root name) = .ok mtime →
      a ≤ mtime ∧ mtime ≤ b →
      (if mode = "copy" then env.copy2 (pjoin root name) dst
       else env.move (pjoin root name) dst) = .error e →
      (process_file_local env mr dr a b mode root name s).errors = s.errors + 1 ∧
      (process_file_local env mr dr a b mode root name s).matched = s.matched ∧
      (process_file_local env mr dr a b mode root name s).events
        = s.events ++ [.scanned (s.scanned + 1), .progress_tick 1,
            .errors (s.errors + 1),
            .log ("ERROR exporting: " ++ env.relpath (pjoin root name) mr
              ++ " (" ++ e ++ ")")]) ∧
    (∀ (env : AdbEnv) (root dr : String) (a b : Int) (remote_file : String)
        (s : WState) (e : String),
      env.stat_mtime remote_file = .error e →
      (process_file_adb env root dr a b remote_file s).errors = s.errors + 1 ∧
      (process_file_adb env root dr a b remote_file s).matched = s.matched ∧
      (process_file_adb env root dr a b remote_file s).events
        = s.events ++ [.scanned (s.scanned + 1), .progress_tick 1,
            .errors (s.errors + 1),
            .log ("ERROR reading time: " ++ remote_file ++ " (" ++ e ++ ")")]) ∧
    (∀ (env : AdbEnv) (root dr : String) (a b : Int) (remote_file : String)
        (s : WState) (mtime : Int) (dst e : String),
      dst = unique_destination_path s.fs
        (pjoin dr (adb_rel_path root remote_file)) →
      env.stat_mtime remote_file = .ok mtime →
      a ≤ mtime ∧ mtime ≤ b →
      env.pull remote_file dst = .error e →
      (process_file_adb env root dr a b remote_file s).errors = s.errors + 1 ∧
      (process_file_adb env root dr a b remote_file s).matched = s.matched ∧
      (process_file_adb env root dr a b remote_file s).events
        = s.events ++ [.scanned (s.scanned + 1), .progress_tick 1,
            .errors (s.errors + 1),
            .log ("ERROR exporting: " ++ adb_rel_path root remote_file
              ++ " (" ++ e ++ ")")]) ∧
    (∀ (env : AdbEnv) (root dr : String) (a b : Int) (sub : String)
        (rest : List String) (s : WState) (e : String),
      env.cancel s.clock = false →
      env.path_exists (root ++ "/" ++ sub) = true →
      env.find_files (root ++ "/" ++ sub) = .error e →
      process_subs_adb env root dr a b (sub :: rest) s =
        process_subs_adb env root dr a b rest
          { s with
            clock := s.clock + 1,
            errors := s.errors + 1,
            events := s.events ++ [.errors (s.errors + 1),
              .log ("ERROR listing files in: " ++ (root ++ "/" ++ sub)
                ++ " (" ++ e ++ ")")] }) ∧
    (∀ (env : LocalEnv) (mr dr : String) (a b : Int) (mode root name : String)
        (rest : List String) (s : WState),
      env.cancel s.clock = false →
      process_files_local env mr dr a b mode root (name :: rest) s =
        process_files_local env mr dr a b mode root rest
          (process_file_local env mr dr a b mode root name
            { s with clock := s.clock + 1 })) ∧
    (∀ (env : AdbEnv) (root dr : String) (a b : Int) (remote_file : String)
        (rest : List String) (s : WState),
      env.cancel s.clock = false →
      process_files_adb env root dr a b (remote_file :: rest) s =
        process_files_adb env root dr a b rest
          (process_file_adb env root dr a b remote_file
            { s with clock := s.clock + 1 })) := by
  refine ⟨?_, ?_, ?_, ?_, ?_, ?_, ?_⟩
  · intro env mr dr a b mode root name s e h
    rw [process_file_local_stat_error h]
    exact ⟨rfl, rfl, rfl⟩
  · intro env mr dr a b mode root name s mtime dst e hdst h hin ht
    rw [process_file_local_transfer_error hdst h hin ht]
    exact ⟨rfl, rfl, rfl⟩
  · intro env root dr a b remote_file s e h
    rw [process_file_adb_stat_error h]
    exact ⟨rfl, rfl, rfl⟩
  · intro env root dr a b remote_file s mtime dst e hdst h hin ht
    rw [process_file_adb_pull_error hdst h hin ht]
    exact ⟨rfl, rfl, rfl⟩
  · intro env root dr a b sub rest s e hc hx hf
    exact process_subs_adb_cons_list_error hc hx hf
  · intro env mr dr a b mode root name rest s hc
    exact process_files_local_cons hc
  · intro env root dr a b remote_file rest s hc
    exact process_files_adb_cons hc

theorem C5_per_item_errors_witness :
    ((process_file_local lenvW "m" "d" 0 10 "copy" "r" "bad"
        (initState [])).errors = 0 + 1 ∧
      (process_file_local lenvW "m" "d" 0 10 "copy" "r" "bad"
        (initState [])).matched = 0 ∧
      (process_file_local lenvW "m" "d" 0 10 "copy" "r" "bad"
        (initState [])).events
        = [] ++ [.scanned (0 + 1), .progress_tick 1, .errors (0 + 1),
            .log ("ERROR reading time: " ++ pjoin "r" "bad" ++ " (" ++ "boom"
              ++ ")")]) ∧
    ((process_file_local lenvW "m" "d" 0 10 "copy" "r" "cfail"
        (initState [])).errors = 0 + 1 ∧
      (process_file_local lenvW "m" "d" 0 10 "copy" "r" "cfail"
        (initState [])).matched = 0 ∧
      (process_file_local lenvW "m" "d" 0 10 "copy" "r" "cfail"
        (initState [])).events
        = [] ++ [.scanned (0 + 1), .progress_tick 1, .errors (0 + 1),
            .log ("ERROR exporting: "
              ++ lenvW.relpath (pjoin "r" "cfail") "m" ++ " (" ++ "cboom"
              ++ ")")]) ∧
    (process_subs_adb aenvW "ar" "ad" 0 10 ["nosub"] (initState []) =
      process_subs_adb aenvW "ar" "ad" 0 10 []
        { initState [] with
          clock := 0 + 1,
          errors := 0 + 1,
          events := [] ++ [.errors (0 + 1),
            .log ("ERROR listing files in: " ++ ("ar" ++ "/" ++ "nosub")
              ++ " (" ++ "lboom" ++ ")")] }) := by
  refine ⟨C5_per_item_errors.1 lenvW "m" "d" 0 10 "copy" "r" "bad"
      (initState []) "boom" rfl,
    C5_per_item_errors.2.1 lenvW "m" "d" 0 10 "copy" "r" "cfail"
      (initState []) 5 _ "cboom" rfl rfl (by decide) rfl,
    ?_⟩
  have h := C5_per_item_errors.2.2.2.2.1 aenvW "ar" "ad" 0 10 "nosub" []
    (initState []) "lboom" rfl rfl rfl
  exact h

/-! ## Claim C4 -/

/-- C4: cancellation is cooperative.  The latch is read exactly at the
head of each root, subfolder, walk-entry and file iteration: once the
latch is set (it is monotone — set once, never cleared), every loop
returns immediately, leaving the state unchanged except for the single
latch read, so no further file is scanned and the remaining roots,
subfolders and files are skipped.  The per-file step never reads the
latch: it is independent of the cancel oracle and performs no latch
read, so a transfer already started always completes or fails on its
own — the latch is never consulted mid-transfer. -/
theorem C4_cooperative_cancellation :
    (∀ (env : LocalEnv) (mr dr : String) (a b : Int) (mode root : String)
        (names : List String) (s : WState) (t : Nat),
      (∀ i j, i ≤ j → env.cancel i = true → env.cancel j = true) →
      env.cancel t = true → t ≤ s.clock →
      process_files_local env mr dr a b mode root names s = s ∨
      process_files_local env mr dr a b mode root names s
        = { s with clock := s.clock + 1 }) ∧
    (∀ (env : LocalEnv) (mr dr : String) (a b : Int) (mode : String)
        (entries : List (String × List String)) (s : WState) (t : Nat),
      (∀ i j, i ≤ j → env.cancel i = true → env.cancel j = true) →
      env.cancel t = true → t ≤ s.clock →
      process_walk_local env mr dr a b mode entries s = s ∨
      process_walk_local env mr dr a b mode entries s
        = { s with clock := s.clock + 1 }) ∧
    (∀ (env : LocalEnv) (mr dr : String) (a b : Int) (mode : String)
        (subs : List String) (s : WState) (t : Nat),
      (∀ i j, i ≤ j → env.cancel i = true → env.cancel j = true) →
      env.cancel t = true → t ≤ s.clock →
      process_subs_local env mr dr a b mode subs s = s ∨
      process_subs_local env mr dr a b mode subs s
        = { s with clock := s.clock + 1 }) ∧
    (∀ (env : AdbEnv) (root dr : String) (a b : Int)
        (files : List String) (s : WState) (t : Nat),
      (∀ i j, i ≤ j → env.cancel i = true → env.cancel j = true) →
      env.cancel t = true → t ≤ s.clock →
      process_files_adb env root dr a b files s = s ∨
      process_files_adb env root dr a b files s
        = { s with clock := s.clock + 1 }) ∧
    (∀ (env : AdbEnv) (root dr : String) (a b : Int)
        (subs : List String) (s : WState) (t : Nat),
      (∀ i j, i ≤ j → env.cancel i = true → env.cancel j = true) →
      env.cancel t = true → t ≤ s.clock →
      process_subs_adb env root dr a b subs s = s ∨
      process_subs_adb env root dr a b subs s
        = { s with clock := s.clock + 1 }) ∧
    (∀ (env : AdbEnv) (dr : String) (a b : Int) (subfolders : List String)
        (roots : List String) (s : WState) (t : Nat),
      (∀ i j, i ≤ j → env.cancel i = true → env.cancel j = true) →
      env.cancel t = true → t ≤ s.clock →
      process_roots_adb env dr a b subfolders roots s = s ∨
      process_roots_adb env dr a b subfolders roots s
        = { s with clock := s.clock + 1 }) ∧
    (∀ (env : LocalEnv) (c : Nat → Bool) (mr dr : String) (a b : Int)
        (mode root name : String) (s : WState),
      process_file_local { env with cancel := c } mr dr a b mode root name s
        = process_file_local env mr dr a b mode root name s) ∧
    (∀ (env : AdbEnv) (c : Nat → Bool) (root dr : String) (a b : Int)
        (remote_file : String) (s : WState),
      process_file_adb { env with cancel := c } root dr a b remote_file s
        = process_file_adb env root dr a b remote_file s) ∧
    (∀ (env : LocalEnv) (mr dr : String) (a b : Int) (mode root name : String)
        (s : WState),
      (process_file_local env mr dr a b mode root name s).clock = s.clock) ∧
    (∀ (env : AdbEnv) (root dr : String) (a b : Int) (remote_file : String)
        (s : WState),
      (process_file_adb env root dr a b remote_file s).clock = s.clock) := by
  refine ⟨?_, ?_, ?_, ?_, ?_, ?_, ?_, ?_, ?_, ?_⟩
  · intro env mr dr a b mode root names s t hmono ht hle
    cases names with
    | nil => exact Or.inl rfl
    | cons n rest =>
      exact Or.inr (process_files_local_cancelled (hmono t s.clock hle ht))
  · intro env mr dr a b mode entries s t hmono ht hle
    cases entries with
    | nil => exact Or.inl rfl
    | cons p rest =>
      cases p with
      | mk root files =>
        exact Or.inr (process_walk_local_cancelled (hmono t s.clock hle ht))
  · intro env mr dr a b mode subs s t hmono ht hle
    cases subs with
    | nil => exact Or.inl rfl
    | cons sub rest =>
      exact Or.inr (process_subs_local_cancelled (hmono t s.clock hle ht))
  · intro env root dr a b files s t hmono ht hle
    cases files with
    | nil => exact Or.inl rfl
    | cons f rest =>
      exact Or.inr (process_files_adb_cancelled (hmono t s.clock hle ht))
  · intro env root dr a b subs s t hmono ht hle
    cases subs with
    | nil => exact Or.inl rfl
    | cons sub rest =>
      exact Or.inr (process_subs_adb_cancelled (hmono t s.clock hle ht))
  · intro env dr a b subfolders roots s t hmono ht hle
    cases roots with
    | nil => exact Or.inl rfl
    | cons root rest =>
      exact Or.inr (process_roots_adb_cancelled (hmono t s.clock hle ht))
  · intro env c mr dr a b mode root name s
    rfl
  · intro env c root dr a b remote_file s
    rfl
  · intro env mr dr a b mode root name s
    rcases h : env.getmtime (pjoin root name) with e | mt
    · rw [process_file_local_stat_error h]
    · by_cases hin : a ≤ mt ∧ mt ≤ b
      · rcases htr : (if mode = "copy"
            then env.copy2 (pjoin root name)
              (unique_destination_path s.fs
                (pjoin dr (env.relpath (pjoin root name) mr)))
            else env.move (pjoin root name)
              (unique_destination_path s.fs
                (pjoin dr (env.relpath (pjoin root name) mr)))) with e | u
        · rw [process_file_local_transfer_error rfl h hin htr]
        · cases u
          rw [process_file_local_transfer_ok rfl h hin htr]
      · rw [process_file_local_filtered h hin]
  · intro env root dr a b remote_file s
    rcases h : env.stat_mtime remote_file with e | mt
    · rw [process_file_adb_stat_error h]
    · by_cases hin : a ≤ mt ∧ mt ≤ b
      · rcases htr : env.pull remote_file
            (unique_destination_path s.fs
              (pjoin dr (adb_rel_path root remote_file))) with e | u
        · rw [process_file_adb_pull_error rfl h hin htr]
        · cases u
          rw [process_file_adb_pull_ok rfl h hin htr]
      · rw [process_file_adb_filtered h hin]

theorem C4_cooperative_cancellation_witness :
    (process_files_local { lenvW with cancel := fun _ => true }
        "m" "d" 0 10 "copy" "r" ["f1", "f2"] (initState []) = initState [] ∨
      process_files_local { lenvW with cancel := fun _ => true }
        "m" "d" 0 10 "copy" "r" ["f1", "f2"] (initState [])
        = { initState [] with clock := (initState []).clock + 1 }) ∧
    (process_file_local { lenvW with cancel := fun _ => true }
        "m" "d" 0 10 "copy" "r" "f1" (initState [])
      = process_file_local lenvW "m" "d" 0 10 "copy" "r" "f1" (initState [])) ∧
    (process_file_local lenvW "m" "d" 0 10 "copy" "r" "f1"
        (initState [])).clock = (initState []).clock :=
  ⟨C4_cooperative_cancellation.1 { lenvW with cancel := fun _ => true }
      "m" "d" 0 10 "copy" "r" ["f1", "f2"] (initState []) 0
      (fun _ _ _ _ => rfl) rfl (Nat.le_refl 0),
   C4_cooperative_cancellation.2.2.2.2.2.2.1 lenvW (fun _ => true)
      "m" "d" 0 10 "copy" "r" "f1" (initState []),
   C4_cooperative_cancellation.2.2.2.2.2.2.2.2.1 lenvW
      "m" "d" 0 10 "copy" "r" "f1" (initState [])⟩

/-! ## Claim C8 -/

/-- C8: for every run that is not cancelled (the latch is never set),
the final scanned count equals the total number of files enumerated
across all existing, selected subfolders — each successfully enumerated
file is counted exactly once — independent of how many files passed the
date filter or failed stat/transfer.  Stated for both workers, started
from the fresh run state. -/
theorem C8_scanned_counts_enumerated_files
    (lenv : LocalEnv) (aenv : AdbEnv) (sr dr adr : String)
    (a b a2 b2 : Int) (subs asubs : List String) (mode : String)
    (fs fs2 : Fs)
    (hl : ∀ i, lenv.cancel i = false) (ha : ∀ i, aenv.cancel i = false) :
    (worker_local lenv sr dr a b subs mode (initState fs)).scanned
      = spec_enumerated_local lenv (detect_media_root lenv.isdir sr) subs ∧
    (worker_adb aenv adr a2 b2 asubs (initState fs2)).scanned
      = spec_enumerated_adb aenv asubs := by
  constructor
  · rw [worker_local_scanned hl]
    simp [initState]
  · rw [worker_adb_scanned ha]
    simp [initState]

theorem C8_scanned_counts_enumerated_files_witness :
    (worker_local lenvW "m" "d" 0 10 ["s"] "copy" (initState [])).scanned
      = spec_enumerated_local lenvW (detect_media_root lenvW.isdir "m") ["s"] ∧
    (worker_adb aenvW "ad" 0 10 ["s"] (initState [])).scanned
      = spec_enumerated_adb aenvW ["s"] :=
  C8_scanned_counts_enumerated_files lenvW aenvW "m" "d" "ad" 0 10 0 10
    ["s"] ["s"] "copy" [] [] (fun _ => rfl) (fun _ => rfl)

/-! ## Claim C3 -/

/-- C3: for every run — remote or local, whether it completes, is
cancelled, or is cut short anywhere by an unexpected internal fault
inside the worker (modelled as an arbitrary truncation `l` of the
worker's event trace) — the `finally` block of `_worker_dispatch`
appends the `done` event, so `done` is emitted exactly once, after all
other events of the run, and no event follows it.  The workers
themselves never emit `done`. -/
theorem C3_done_emitted_once_last (l : List Event)
    (h : (∃ (lenv : LocalEnv) (sr dr : String) (a b : Int)
            (subs : List String) (mode : String) (fs : Fs)
            (tail : List Event),
            (worker_local lenv sr dr a b subs mode (initState fs)).events
              = l ++ tail) ∨
         (∃ (aenv : AdbEnv) (dr : String) (a b : Int) (subs : List String)
            (fs : Fs) (tail : List Event),
            (worker_adb aenv dr a b subs (initState fs)).events
              = l ++ tail)) :
    (worker_dispatch l).count Event.done = 1 ∧
      (worker_dispatch l).getLast? = some Event.done := by
  have hno : Event.done ∉ l := by
    rcases h with ⟨lenv, sr, dr, a, b, subs, mode, fs, tail, hev⟩ |
      ⟨aenv, dr, a, b, subs, fs, tail, hev⟩
    · obtain ⟨t, ht, hp⟩ :=
        worker_local_trace lenv sr dr a b subs mode (initState fs)
      rw [hev] at ht
      intro hmem
      exact hp Event.done (by
        rw [show (initState fs).events = [] from rfl] at ht
        rw [List.nil_append] at ht
        rw [← ht]
        exact List.mem_append.mpr (Or.inl hmem)) rfl
    · obtain ⟨t, ht, hp⟩ := worker_adb_trace aenv dr a b subs (initState fs)
      rw [hev] at ht
      intro hmem
      exact hp Event.done (by
        rw [show (initState fs).events = [] from rfl] at ht
        rw [List.nil_append] at ht
        rw [← ht]
        exact List.mem_append.mpr (Or.inl hmem)) rfl
  constructor
  · rw [worker_dispatch, List.count_append]
    rw [List.count_eq_zero.mpr hno]
    rfl
  · rw [worker_dispatch]
    exact List.getLast?_concat l

theorem C3_done_emitted_once_last_witness :
    (worker_dispatch (worker_local lenvW "m" "d" 0 10 ["s"] "copy"
        (initState [])).events).count Event.done = 1 ∧
      (worker_dispatch (worker_local lenvW "m" "d" 0 10 ["s"] "copy"
        (initState [])).events).getLast? = some Event.done :=
  C3_done_emitted_once_last _
    (Or.inl ⟨lenvW, "m", "d", 0, 10, ["s"], "copy", [], [], by simp⟩)

/-! ## Claim C9 -/

/-- C9: within a single run (each worker starts from the fresh run state
that `_on_start` establishes), the values carried by the emitted
scanned-count, exported-count, and error-count events are each
monotonically non-decreasing in emission order — no event ever reports a
lower value than a previously emitted event for the same counter.
Stated for both workers, over arbitrary environments. -/
theorem C9_counter_events_monotone (lenv : LocalEnv) (aenv : AdbEnv)
    (sr dr adr : String) (a b a2 b2 : Int) (subs asubs : List String)
    (mode : String) (fs fs2 : Fs) :
    (List.Pairwise (· ≤ ·) (scannedVals
        (worker_local lenv sr dr a b subs mode (initState fs)).events) ∧
     List.Pairwise (· ≤ ·) (matchedVals
        (worker_local lenv sr dr a b subs mode (initState fs)).events) ∧
     List.Pairwise (· ≤ ·) (errorVals
        (worker_local lenv sr dr a b subs mode (initState fs)).events)) ∧
    (List.Pairwise (· ≤ ·) (scannedVals
        (worker_adb aenv adr a2 b2 asubs (initState fs2)).events) ∧
     List.Pairwise (· ≤ ·) (matchedVals
        (worker_adb aenv adr a2 b2 asubs (initState fs2)).events) ∧
     List.Pairwise (· ≤ ·) (errorVals
        (worker_adb aenv adr a2 b2 asubs (initState fs2)).events)) := by
  have hl : counterInv (worker_local lenv sr dr a b subs mode (initState fs)) :=
    counterInv_worker_local (counterInv_initState fs)
  have ha : counterInv (worker_adb aenv adr a2 b2 asubs (initState fs2)) :=
    counterInv_worker_adb (counterInv_initState fs2)
  obtain ⟨p1, p2, p3, -, -, -⟩ := hl
  obtain ⟨q1, q2, q3, -, -, -⟩ := ha
  exact ⟨⟨p1, p2, p3⟩, ⟨q1, q2, q3⟩⟩

/-! ## Claim C7 -/

/-- C7 counterexample: with one subfolder whose walk holds a single
directory of 500001 files, `_estimate_total_files_local` returns 500001
— the running total, not the cap value 500000 — and `_worker_local`,
seeing a positive total, emits a determinate `progress_setup` with that
value and never emits `progress_indeterminate`: the run does not proceed
in indeterminate-progress mode beyond the cap. -/
theorem C7_estimate_cap_counterexample :
    estimate_total_files_local envC7 "m" ["s"] = 500001 ∧
    estimate_total_files_local envC7 "m" ["s"] ≠ 500000 ∧
    Event.progress_setup (estimate_total_files_local envC7 "m" ["s"])
      ∈ (worker_local envC7 "m" "d" 0 0 ["s"] "copy" (initState [])).events ∧
    Event.progress_indeterminate
      ∉ (worker_local envC7 "m" "d" 0 0 ["s"] "copy" (initState [])).events := by
  have he := estimate_C7_value
  have hd : detect_media_root envC7.isdir "m" = "m" := rfl
  obtain ⟨tr, hev, hmem, hnot⟩ := worker_local_progress envC7 "m" "d" 0 0 ["s"]
    "copy" (initState []) (by rw [hd, he]; norm_num)
  refine ⟨he, by rw [he]; norm_num, ?_, ?_⟩
  · rw [hev, show (initState [] : WState).events = [] from rfl,
      List.nil_append]
    rwa [hd] at hmem
  · rw [hev, show (initState [] : WState).events = [] from rfl,
      List.nil_append]
    exact hnot

/-- C7 (amended): the upfront local estimate is computed by a bounded
filesystem walk — once the running total exceeds 500,000 the walk stops
(with the remaining subfolders not walked) and the estimate returns the
running total at that point, which is strictly greater than 500,000 and
is not capped at the sentinel; the worker then reports that (positive)
value through a determinate `progress_setup` event and proceeds in
determinate mode — indeterminate-progress mode is never entered when
the estimate is positive. -/
theorem C7_estimate_cap_amended :
    (∀ (env : LocalEnv) (mr sub : String) (rest : List String) (t : Nat),
      env.isdir (pjoin mr sub) = true →
      estimate_walk (env.walk (pjoin mr sub)) 0 = .inl t →
      estimate_total_files_local env mr (sub :: rest) = t) ∧
    (∀ (entries : List (String × List String)) (total t : Nat),
      estimate_walk entries total = .inl t → t > 500000) ∧
    (∀ (env : LocalEnv) (sr dr : String) (a b : Int) (subs : List String)
        (mode : String) (s : WState),
      estimate_total_files_local env (detect_media_root env.isdir sr)
        subs > 0 →
      ∃ tr, (worker_local env sr dr a b subs mode s).events
          = s.events ++ tr ∧
        Event.progress_setup (estimate_total_files_local env
          (detect_media_root env.isdir sr) subs) ∈ tr ∧
        Event.progress_indeterminate ∉ tr) :=
  ⟨fun _ _ _ _ _ hd hw => estimate_subs_early hd hw,
   fun _ _ _ h => estimate_walk_inl h,
   fun env sr dr a b subs mode s ht =>
     worker_local_progress env sr dr a b subs mode s ht⟩

theorem C7_estimate_cap_amended_witness :
    estimate_total_files_local envC7 "m" ["s"] = 500001 ∧
      (500001 : Nat) > 500000 ∧
      ∃ tr, (worker_local envC7 "m" "d" 0 0 ["s"] "copy"
          (initState [])).events = (initState [] : WState).events ++ tr ∧
        Event.progress_setup (estimate_total_files_local envC7
          (detect_media_root envC7.isdir "m") ["s"]) ∈ tr ∧
        Event.progress_indeterminate ∉ tr :=
  ⟨C7_estimate_cap_amended.1 envC7 "m" "s" [] 500001 rfl
      (by show estimate_walk [("m/s", List.replicate 500001 "f")] 0
            = .inl 500001
          rw [estimate_walk]
          rw [List.length_replicate, Nat.zero_add,
            if_pos (by norm_num : (500001 : Nat) > 500000)]),
   C7_estimate_cap_amended.2.1 [("m/s", List.replicate 500001 "f")] 0 500001
      (by rw [estimate_walk]
          rw [List.length_replicate, Nat.zero_add,
            if_pos (by norm_num : (500001 : Nat) > 500000)]),
   C7_estimate_cap_amended.2.2 envC7 "m" "d" 0 0 ["s"] "copy" (initState [])
      (by rw [show detect_media_root envC7.isdir "m" = "m" from rfl,
            estimate_C7_value]
          norm_num)⟩

end WhatsappExporter
